import Mathlib

/-!
# powertun: the forwarding engine of src/main.c

A shallow embedding of `cread`, `cwrite`, `read_n`, the socket set-up of `main`
and the body of its forwarding loop, followed by theorems about them.

Modelling conventions.

* The C `int` values are `Int`; the `uint16_t` locals of `main` are `Nat`
  reduced modulo 65536 where a value is assigned to them.
* A byte is a `Nat`; where two bytes are read back as a `uint16_t` each byte is
  taken modulo 256.
* The operating system is an explicit value (`Kernel`): the descriptor table,
  the frames queued at the device, the byte stream or the datagrams queued at
  the socket, and the results the set-up calls return.  Every system call that
  returns is appended to `Kernel.trace` together with its result.
* `exit(1)` and a call that never returns (a blocking read with nothing to
  deliver) are outcomes of their own (`Res.exit`, `Res.block`).
* Memory behind the pointers `buffer` and `(char *)&plength` is a list that is
  not bounded by the size of the C object, so that a store past the end of
  `char buffer[BUFSIZE]` shows as growth of the list.
* Assumptions on the operating system: a `write` or `sendto` that succeeds
  takes all the bytes it is given (the program ignores the count they return);
  the device is opened by `tun_alloc` with `IFF_TUN` or `IFF_TAP` and never
  with `IFF_NO_PI` (main.c 70-73), so every frame written to it starts with the
  four bytes of a `struct tun_pi` and the device rejects a `write` of fewer
  than four bytes, the empty one included; `sendto` on a datagram socket
  succeeds for every destination; `slen` keeps the size of a
  `struct sockaddr_in`; `select` is not part of `Kernel`, its result is an
  input of each iteration of the loop.
* `loop_iter` and `main_loop` take the results of `select` as a list, one per
  iteration; the C loop has no bound, so `main_loop` reports whether the loop
  was left within these iterations.
-/

namespace Powertun

/-- Size of the frame buffer: `#define BUFSIZE 2000`. -/
def BUFSIZE : Nat := 2000
/-- Role constant: `#define CLIENT_MODE 0`. -/
def CLIENT_MODE : Nat := 0
/-- Role constant: `#define SERVER_MODE 1`. -/
def SERVER_MODE : Nat := 1
/-- Transport constant: `#define TCP_MODE 0`. -/
def TCP_MODE : Nat := 0
/-- Transport constant: `#define UDP_MODE 1`. -/
def UDP_MODE : Nat := 1
/-- Default port: `#define DEFAULT_PORT 6666`. -/
def DEFAULT_PORT : Nat := 6666
/-- Backlog of `listen`: `#define LISTEN_MAX 5`. -/
def LISTEN_MAX : Nat := 5
/-- Address family `AF_INET`. -/
def AF_INET : Nat := 2
/-- Wildcard address `INADDR_ANY`. -/
def INADDR_ANY : Nat := 0
/-- Exit status `EXIT_SUCCESS`. -/
def EXIT_SUCCESS : Nat := 0
/-- Size of the `struct tun_pi` that starts every frame of a device opened, as
`tun_alloc` does (main.c 70-73), without `IFF_NO_PI`; the device rejects a
`write` of fewer bytes. -/
def TUN_PI_LEN : Nat := 4

/-- One `char` of a buffer. -/
abbrev Byte := Nat

/-- The fields of a `struct sockaddr_in`; address and port are kept as the
numbers the configuration gives (their byte order plays no role here). -/
structure SockAddr where
  family : Nat
  addr : Nat
  port : Nat
deriving DecidableEq, Repr

/-- A zero filled `struct sockaddr_in`: the value of the global `si_other` at
program start and of `server`, `local` after `memset`. -/
def SockAddr.zero : SockAddr := ⟨0, 0, 0⟩

/-! ## Byte order -/

/-- Swap the two bytes of a 16 bit value. -/
def bswap16 (x : Nat) : Nat := (x % 256) * 256 + (x / 256) % 256

/-- The function `htons` on a host that is little endian (`le = true`) or big
endian (`le = false`). -/
def htons (le : Bool) (x : Nat) : Nat := if le then bswap16 x else x % 65536

/-- The function `ntohs`; the same permutation as `htons`. -/
def ntohs (le : Bool) (x : Nat) : Nat := if le then bswap16 x else x % 65536

/-- The two bytes of a `uint16_t` object in memory, lowest address first. -/
def u16_bytes (le : Bool) (v : Nat) : List Byte :=
  if le then [v % 256, (v / 256) % 256] else [(v / 256) % 256, v % 256]

/-- The value of a `uint16_t` object whose memory holds the given bytes. -/
def u16_of_bytes (le : Bool) (bs : List Byte) : Nat :=
  let b0 := bs.getD 0 0 % 256
  let b1 := bs.getD 1 0 % 256
  if le then b0 + 256 * b1 else b0 * 256 + b1

/-- Conversion of an `int` to `uint16_t`. -/
def toU16 (x : Int) : Nat := (x % 65536).toNat

/-! ## The operating system -/

/-- What a descriptor refers to. -/
inductive FdKind where
  | tun        -- the virtual device opened by tun_alloc
  | tcpNew     -- a SOCK_STREAM socket that is neither connected nor listening
  | tcpListen  -- a listening SOCK_STREAM socket
  | tcpConn    -- a connected SOCK_STREAM socket
  | udp        -- a SOCK_DGRAM socket
deriving DecidableEq, Repr

/-- One entry of the schedule of a stream: how the next `read` behaves. -/
inductive Chunk where
  | upTo (k : Nat)  -- the call delivers at most k + 1 bytes
  | fail            -- the call fails and returns -1
deriving DecidableEq, Repr

/-- Receive side of the connected stream socket: the bytes the peer has sent
and that were not read yet, whether the peer has shut the connection down after
them, and how the coming reads split the bytes. -/
structure Stream where
  pending : List Byte
  closed : Bool
  sched : List Chunk
deriving DecidableEq, Repr

/-- One datagram queued at the socket. -/
structure Dgram where
  src : SockAddr
  data : List Byte
deriving DecidableEq, Repr

/-- A system call that has returned, with its arguments and result. -/
inductive Syscall where
  | read (fd : Int) (count : Nat) (ret : Int)
  | recvfrom (fd : Int) (count : Nat) (ret : Int) (src : Option SockAddr)
  | write (fd : Int) (data : List Byte) (ret : Int)
  | sendto (fd : Int) (data : List Byte) (dest : SockAddr) (ret : Int)
  | socket (stream : Bool) (ret : Int)
  | connect (fd : Int) (addr : SockAddr) (ret : Int)
  | setsockopt (fd : Int) (ret : Int)
  | bind (fd : Int) (addr : SockAddr) (ret : Int)
  | listen (fd : Int) (backlog : Nat) (ret : Int)
  | accept (fd : Int) (ret : Int)
deriving DecidableEq, Repr

/-- State of the operating system as far as the program can observe it. -/
structure Kernel where
  fds : List (Int × FdKind)
  tunIn : List (List Byte)
  stream : Stream
  dgrams : List Dgram
  socketRet : Int
  connectRet : Int
  setsockoptRet : Int
  bindRet : Int
  listenRet : Int
  acceptRet : Int
  trace : List Syscall
deriving DecidableEq, Repr

/-- Kind of the object behind a descriptor, if it is open. -/
def Kernel.kind (k : Kernel) (fd : Int) : Option FdKind :=
  (k.fds.find? (fun e => e.1 == fd)).map (fun e => e.2)

/-- Open a descriptor, or change what it refers to. -/
def Kernel.setKind (k : Kernel) (fd : Int) (kd : FdKind) : Kernel :=
  { k with fds := (fd, kd) :: k.fds }

/-! ## Program state -/

/-- A `char *` of the program: a position inside `buffer` or inside the object
`plength`. -/
inductive Ptr where
  | buffer (off : Nat)
  | plength (off : Nat)
deriving DecidableEq, Repr

/-- Pointer arithmetic `buf += n`. -/
def Ptr.add : Ptr → Nat → Ptr
  | Ptr.buffer off, n => Ptr.buffer (off + n)
  | Ptr.plength off, n => Ptr.plength (off + n)

/-- The globals of the file, the locals of `main` that the forwarding loop
uses, the byte order of the host and the operating system. -/
structure State where
  mode : Nat
  nwk_mode : Nat
  si_other : SockAddr
  tunfd : Int
  sockfd : Int
  netfd : Int
  server : SockAddr
  nread : Nat
  nwrite : Nat
  plength : List Byte
  buffer : List Byte
  hostLE : Bool
  k : Kernel
deriving DecidableEq, Repr

/-- Overwrite `bs.length` bytes of a memory region starting at offset `off`. -/
def storeAt (mem : List Byte) (off : Nat) (bs : List Byte) : List Byte :=
  mem.take off ++ bs ++ mem.drop (off + bs.length)

/-- The `n` bytes of a memory region starting at offset `off`. -/
def loadAt (mem : List Byte) (off : Nat) (n : Nat) : List Byte :=
  (mem.drop off).take n

/-- Store bytes through a pointer. -/
def State.store (s : State) : Ptr → List Byte → State
  | Ptr.buffer off, bs => { s with buffer := storeAt s.buffer off bs }
  | Ptr.plength off, bs => { s with plength := storeAt s.plength off bs }

/-- Load bytes through a pointer. -/
def State.load (s : State) : Ptr → Nat → List Byte
  | Ptr.buffer off, n => loadAt s.buffer off n
  | Ptr.plength off, n => loadAt s.plength off n

/-- Append a returned system call to the trace. -/
def State.log (s : State) (c : Syscall) : State :=
  { s with k := { s.k with trace := s.k.trace ++ [c] } }

/-- How a piece of the program ends: it returns a value, the process calls
`exit`, a system call never returns, or the bound on the iterations of a loop
of the model was too small. -/
inductive Res (α : Type) where
  | ok (a : α) (s : State)
  | exit (code : Nat) (s : State)
  | block (s : State)
  | fuel (s : State)
deriving Repr

/-- The state in which a piece of the program ends. -/
def Res.state {α : Type} : Res α → State
  | Res.ok _ s => s
  | Res.exit _ s => s
  | Res.block s => s
  | Res.fuel s => s

/-- A piece of the program: a function of the state. -/
def M (α : Type) : Type := State → Res α

/-- Sequencing: the second piece runs only when the first one returns. -/
def M.bind {α β : Type} (m : M α) (f : α → M β) : M β := fun s =>
  match m s with
  | Res.ok a s1 => f a s1
  | Res.exit c s1 => Res.exit c s1
  | Res.block s1 => Res.block s1
  | Res.fuel s1 => Res.fuel s1

instance : Monad M where
  pure a := fun s => Res.ok a s
  bind := M.bind

/-- The call `exit(code)`. -/
def exitWith {α : Type} (code : Nat) : M α := fun s => Res.exit code s

/-- Read the current state. -/
def getState : M State := fun s => Res.ok s s

/-- Replace the current state. -/
def setState (s : State) : M Unit := fun _ => Res.ok () s

/-! ## System calls -/

/-- Number of bytes that the next successful `read` of at most `count` bytes
takes from a stream that has enough bytes pending. -/
def Stream.quota (st : Stream) (count : Nat) : Nat :=
  match st.sched with
  | Chunk.upTo k :: _ => min (k + 1) count
  | _ => count

/-- The call `read(fd, buf, count)`.  On the device it takes one queued frame
and copies at most `count` of its bytes; on a connected stream socket it
delivers between one and `count` of the pending bytes as the schedule says,
zero at end of stream; on a datagram socket it takes one datagram.  With nothing
to deliver the call does not return.  On any other descriptor it fails. -/
def sys_read (fd : Int) (buf : Ptr) (count : Nat) : M Int := fun s =>
  match s.k.kind fd with
  | some FdKind.tun =>
    match s.k.tunIn with
    | [] => Res.block s
    | f :: rest =>
      let bs := f.take count
      let s1 := { s with k := { s.k with tunIn := rest } }
      Res.ok bs.length ((s1.store buf bs).log (Syscall.read fd count bs.length))
  | some FdKind.tcpConn =>
    let st := s.k.stream
    if st.sched.head? = some Chunk.fail then
      let s1 := { s with k := { s.k with stream := { st with sched := st.sched.tail } } }
      Res.ok (-1) (s1.log (Syscall.read fd count (-1)))
    else if st.pending = [] then
      if st.closed then Res.ok 0 (s.log (Syscall.read fd count 0)) else Res.block s
    else
      let bs := st.pending.take (st.quota count)
      let s1 := { s with k := { s.k with stream :=
        { st with pending := st.pending.drop (st.quota count), sched := st.sched.tail } } }
      Res.ok bs.length ((s1.store buf bs).log (Syscall.read fd count bs.length))
  | some FdKind.udp =>
    match s.k.dgrams with
    | [] => Res.block s
    | d :: rest =>
      let bs := d.data.take count
      let s1 := { s with k := { s.k with dgrams := rest } }
      Res.ok bs.length ((s1.store buf bs).log (Syscall.read fd count bs.length))
  | _ => Res.ok (-1) (s.log (Syscall.read fd count (-1)))

/-- The call `recvfrom(fd, buf, count, 0, &si_other, &slen)`.  On a datagram
socket it takes one datagram, copies at most `count` of its bytes, drops the
rest and stores the source address in `si_other`; on a connected stream socket
it behaves as `read` and leaves `si_other` alone; on a descriptor that is not a
socket it fails. -/
def sys_recvfrom (fd : Int) (buf : Ptr) (count : Nat) : M Int := fun s =>
  match s.k.kind fd with
  | some FdKind.udp =>
    match s.k.dgrams with
    | [] => Res.block s
    | d :: rest =>
      let bs := d.data.take count
      let s1 := { s with si_other := d.src, k := { s.k with dgrams := rest } }
      Res.ok bs.length
        ((s1.store buf bs).log (Syscall.recvfrom fd count bs.length (some d.src)))
  | some FdKind.tcpConn =>
    let st := s.k.stream
    if st.sched.head? = some Chunk.fail then
      let s1 := { s with k := { s.k with stream := { st with sched := st.sched.tail } } }
      Res.ok (-1) (s1.log (Syscall.recvfrom fd count (-1) none))
    else if st.pending = [] then
      if st.closed then Res.ok 0 (s.log (Syscall.recvfrom fd count 0 none)) else Res.block s
    else
      let bs := st.pending.take (st.quota count)
      let s1 := { s with k := { s.k with stream :=
        { st with pending := st.pending.drop (st.quota count), sched := st.sched.tail } } }
      Res.ok bs.length ((s1.store buf bs).log (Syscall.recvfrom fd count bs.length none))
  | _ => Res.ok (-1) (s.log (Syscall.recvfrom fd count (-1) none))

/-- The call `write(fd, buf, n)`: a connected stream socket takes all `n`
bytes; the device takes the `n` bytes of a frame when they are at least the
`TUN_PI_LEN` bytes of its header and fails otherwise; on every other descriptor
the call fails (a datagram socket without a connected peer has no
destination). -/
def sys_write (fd : Int) (buf : Ptr) (n : Nat) : M Int := fun s =>
  let bs := s.load buf n
  match s.k.kind fd with
  | some FdKind.tun =>
    if n < TUN_PI_LEN then Res.ok (-1) (s.log (Syscall.write fd bs (-1)))
    else Res.ok n (s.log (Syscall.write fd bs n))
  | some FdKind.tcpConn => Res.ok n (s.log (Syscall.write fd bs n))
  | _ => Res.ok (-1) (s.log (Syscall.write fd bs (-1)))

/-- The call `sendto(fd, buf, n, 0, &si_other, slen)`: on a datagram socket one
datagram with the `n` bytes is sent to the address held in `si_other`; on a
connected stream socket the bytes are sent on the connection; on a descriptor
that is not a socket the call fails. -/
def sys_sendto (fd : Int) (buf : Ptr) (n : Nat) : M Int := fun s =>
  let bs := s.load buf n
  match s.k.kind fd with
  | some FdKind.udp => Res.ok n (s.log (Syscall.sendto fd bs s.si_other n))
  | some FdKind.tcpConn => Res.ok n (s.log (Syscall.sendto fd bs s.si_other n))
  | _ => Res.ok (-1) (s.log (Syscall.sendto fd bs s.si_other (-1)))

/-! ## `cread`, `cwrite`, `read_n` -/

/-- The function `cread` (main.c 87-109). -/
def cread (fd : Int) (buf : Ptr) (n : Int) (socket_mode : Nat) : M Int :=
  if socket_mode = TCP_MODE then do
    let nread ← sys_read fd buf n.toNat
    if nread < 0 then exitWith 1 else pure nread
  else do
    let nread ← sys_recvfrom fd buf n.toNat
    if nread < 0 then exitWith 1 else pure nread

/-- The function `cwrite` (main.c 111-133).  The branch is taken on the global
`nwk_mode`; the parameter `socket_mode` is not read. -/
def cwrite (fd : Int) (buf : Ptr) (n : Int) (_socket_mode : Nat) : M Int := do
  let g ← getState
  if g.nwk_mode = TCP_MODE then do
    let nwrite ← sys_write fd buf n.toNat
    if nwrite < 0 then exitWith 1 else pure nwrite
  else do
    let nwrite ← sys_sendto fd buf n.toNat
    if nwrite < 0 then exitWith 1 else pure nwrite

/-- The `while(left > 0)` loop of `read_n`, with a bound on the number of
iterations; `Res.fuel` when the bound is reached with `left > 0`. -/
def read_n_loop (fd : Int) (n : Int) (socket_mode : Nat) : Nat → Int → Ptr → M Int
  | 0, left, _ => if left > 0 then (fun s => Res.fuel s) else pure n
  | fuel + 1, left, buf =>
    if left > 0 then do
      let nread ← cread fd buf left socket_mode
      if nread = 0 then pure 0
      else read_n_loop fd n socket_mode fuel (left - nread) (buf.add nread.toNat)
    else pure n

/-- The function `read_n` (main.c 135-152).  Every iteration that continues
lowers `left` by at least one, so `n` iterations are enough. -/
def read_n (fd : Int) (buf : Ptr) (n : Int) (socket_mode : Nat) : M Int :=
  read_n_loop fd n socket_mode n.toNat n buf

/-- Apply a function to the current state. -/
def modifyState (f : State → State) : M Unit := fun s => Res.ok () (f s)

/-! ## Socket set-up (main.c 256-327) -/

/-- The call `socket(AF_INET, SOCK_STREAM or SOCK_DGRAM, 0)`: the environment
chooses the result; a result that is not negative is a new descriptor. -/
def sys_socket (stream : Bool) : M Int := fun s =>
  let r := s.k.socketRet
  let k1 := if r < 0 then s.k
    else s.k.setKind r (if stream then FdKind.tcpNew else FdKind.udp)
  Res.ok r ({ s with k := k1 }.log (Syscall.socket stream r))

/-- The call `connect(fd, &addr, sizeof addr)` on a fresh stream socket. -/
def sys_connect (fd : Int) (addr : SockAddr) : M Int := fun s =>
  match s.k.kind fd with
  | some FdKind.tcpNew =>
    let r := s.k.connectRet
    let k1 := if r < 0 then s.k else s.k.setKind fd FdKind.tcpConn
    Res.ok r ({ s with k := k1 }.log (Syscall.connect fd addr r))
  | _ => Res.ok (-1) (s.log (Syscall.connect fd addr (-1)))

/-- The call `setsockopt(fd, SOL_SOCKET, SO_REUSEADDR, ...)`. -/
def sys_setsockopt (fd : Int) : M Int := fun s =>
  match s.k.kind fd with
  | some FdKind.tcpNew => Res.ok s.k.setsockoptRet (s.log (Syscall.setsockopt fd s.k.setsockoptRet))
  | some FdKind.udp => Res.ok s.k.setsockoptRet (s.log (Syscall.setsockopt fd s.k.setsockoptRet))
  | _ => Res.ok (-1) (s.log (Syscall.setsockopt fd (-1)))

/-- The call `bind(fd, &addr, sizeof addr)`. -/
def sys_bind (fd : Int) (addr : SockAddr) : M Int := fun s =>
  match s.k.kind fd with
  | some FdKind.tcpNew => Res.ok s.k.bindRet (s.log (Syscall.bind fd addr s.k.bindRet))
  | some FdKind.udp => Res.ok s.k.bindRet (s.log (Syscall.bind fd addr s.k.bindRet))
  | _ => Res.ok (-1) (s.log (Syscall.bind fd addr (-1)))

/-- The call `listen(fd, backlog)` on a fresh stream socket. -/
def sys_listen (fd : Int) (backlog : Nat) : M Int := fun s =>
  match s.k.kind fd with
  | some FdKind.tcpNew =>
    let r := s.k.listenRet
    let k1 := if r < 0 then s.k else s.k.setKind fd FdKind.tcpListen
    Res.ok r ({ s with k := k1 }.log (Syscall.listen fd backlog r))
  | _ => Res.ok (-1) (s.log (Syscall.listen fd backlog (-1)))

/-- The call `accept(fd, &server, &serverlen)` on a listening socket: a result
that is not negative is the descriptor of the accepted connection.  The peer
address that the call stores in `server` is not modelled; `server` is not read
afterwards. -/
def sys_accept (fd : Int) : M Int := fun s =>
  match s.k.kind fd with
  | some FdKind.tcpListen =>
    let r := s.k.acceptRet
    let k1 := if r < 0 then s.k else s.k.setKind r FdKind.tcpConn
    Res.ok r ({ s with k := k1 }.log (Syscall.accept fd r))
  | _ => Res.ok (-1) (s.log (Syscall.accept fd (-1)))

/-- The state of the program when the socket set-up starts: the options have
set the globals `mode` and `nwk_mode`, the global `si_other` is zero filled
(static storage, no assignment before this point), and every other component,
among them the locals `sockfd` and `netfd` that were not assigned yet, holds
whatever `s` gives. -/
def boot (mode nwk_mode : Nat) (s : State) : State :=
  { s with mode := mode, nwk_mode := nwk_mode, si_other := SockAddr.zero }

/-- The socket set-up of `main` (main.c 256-327); `server_ip` stands for
`inet_addr(server_ip)` and `port` for the local `port`. -/
def setup (server_ip port : Nat) : M Unit := do
  let g ← getState
  if g.nwk_mode = TCP_MODE then do
    let fd ← sys_socket true
    modifyState (fun s => { s with sockfd := fd })
    if fd < 0 then exitWith 1 else pure ()
  else do
    let fd ← sys_socket false
    modifyState (fun s => { s with sockfd := fd })
    if fd < 0 then exitWith 1 else pure ()
  let g ← getState
  if g.mode = CLIENT_MODE then do
    modifyState (fun s => { s with server := ⟨AF_INET, server_ip, port⟩ })
    let g ← getState
    if g.nwk_mode = TCP_MODE then do
      let r ← sys_connect g.sockfd g.server
      if r < 0 then exitWith 1 else pure ()
    else pure ()
    modifyState (fun s => { s with netfd := s.sockfd })
  else do
    let r ← sys_setsockopt g.sockfd
    if r < 0 then exitWith 1 else pure ()
    let r ← sys_bind g.sockfd ⟨AF_INET, INADDR_ANY, port⟩
    if r < 0 then exitWith 1 else pure ()
    if g.nwk_mode = TCP_MODE then do
      let r ← sys_listen g.sockfd LISTEN_MAX
      if r < 0 then exitWith 1 else pure ()
      modifyState (fun s => { s with server := SockAddr.zero })
      let fd ← sys_accept g.sockfd
      modifyState (fun s => { s with netfd := fd })
      if fd < 0 then exitWith 1 else pure ()
    else pure ()

/-! ## The forwarding loop (main.c 329-369) -/

/-- What `select` reports in one iteration: interrupted by a signal, failed
for another reason, or returned with the readiness of the two descriptors. -/
inductive SelRes where
  | eintr
  | fail
  | ready (tun net : Bool)
deriving DecidableEq, Repr

/-- The branch `if(FD_ISSET(tunfd, &rd_set))` (main.c 349-357). -/
def tun_branch : M Unit := do
  let s ← getState
  let r ← cread s.tunfd (Ptr.buffer 0) BUFSIZE TCP_MODE
  modifyState (fun s => { s with nread := toU16 r })
  modifyState (fun s => { s with plength := u16_bytes s.hostLE (htons s.hostLE s.nread) })
  let s ← getState
  let w ← cwrite s.netfd (Ptr.plength 0) 2 s.nwk_mode
  modifyState (fun s => { s with nwrite := toU16 w })
  let s ← getState
  let w ← cwrite s.netfd (Ptr.buffer 0) s.nread s.nwk_mode
  modifyState (fun s => { s with nwrite := toU16 w })

/-- The branch `if(FD_ISSET(netfd, &rd_set))` (main.c 359-368); the result is
`true` when the branch leaves the loop through `break`. -/
def net_branch : M Bool := do
  let s ← getState
  let r ← read_n s.netfd (Ptr.plength 0) 2 s.nwk_mode
  modifyState (fun s => { s with nread := toU16 r })
  let s ← getState
  if s.nread = 0 then pure true
  else do
    let r ← read_n s.netfd (Ptr.buffer 0) (ntohs s.hostLE (u16_of_bytes s.hostLE s.plength))
      s.nwk_mode
    modifyState (fun s => { s with nread := toU16 r })
    let s ← getState
    let w ← cwrite s.tunfd (Ptr.buffer 0) s.nread TCP_MODE
    modifyState (fun s => { s with nwrite := toU16 w })
    pure false

/-- One iteration of `while(1)`, given what `select` reports; the result is
`true` when the iteration leaves the loop through `break`. -/
def loop_iter (sel : SelRes) : M Bool :=
  match sel with
  | SelRes.eintr => pure false
  | SelRes.fail => exitWith 1
  | SelRes.ready t n => do
    if t then tun_branch else pure ()
    if n then net_branch else pure false

/-- The loop `while(1)` run for the given results of `select`; `true` when the
loop was left through `break`, `false` when it is still running after the last
of them. -/
def main_loop : List SelRes → M Bool
  | [] => pure false
  | sel :: rest => do
    let b ← loop_iter sel
    if b then pure true else main_loop rest

/-- The loop followed by `return EXIT_SUCCESS`: `some 0` when `main` returned,
`none` while the loop is still running. -/
def forward (sels : List SelRes) : M (Option Nat) := do
  let b ← main_loop sels
  if b then pure (some EXIT_SUCCESS) else pure none

/-- The function `main` from the socket set-up on. -/
def main_from_setup (server_ip port : Nat) (sels : List SelRes) : M (Option Nat) := do
  setup server_ip port
  forward sels

/-! ## Reading the trace -/

/-- The data of the calls `write` and `sendto` on descriptor `fd` that
succeeded, in the order of the calls. -/
def written (fd : Int) : List Syscall → List (List Byte)
  | [] => []
  | Syscall.write fd1 data ret :: rest =>
    if fd1 = fd ∧ 0 ≤ ret then data :: written fd rest else written fd rest
  | Syscall.sendto fd1 data _ ret :: rest =>
    if fd1 = fd ∧ 0 ≤ ret then data :: written fd rest else written fd rest
  | _ :: rest => written fd rest

/-- All bytes handed to descriptor `fd`, in order. -/
def wire (fd : Int) (tr : List Syscall) : List Byte := (written fd tr).flatten

/-- The memory region a pointer points into. -/
def State.region (s : State) : Ptr → List Byte
  | Ptr.buffer _ => s.buffer
  | Ptr.plength _ => s.plength

/-- The offset of a pointer inside its region. -/
def Ptr.off : Ptr → Nat
  | Ptr.buffer off => off
  | Ptr.plength off => off

/-- The state reached from `s` when reads on the stream have stored `data` at
`buf`, left `rest` pending and `sched` as the schedule, and have appended
`calls` to the trace. -/
def State.delivered (s : State) (buf : Ptr) (data rest : List Byte) (sched : List Chunk)
    (calls : List Syscall) : State :=
  { (s.store buf data) with
    k := { s.k with
      stream := { s.k.stream with pending := rest, sched := sched },
      trace := s.k.trace ++ calls } }

/-- Whether a call of the trace is a `read` or a `recvfrom` that returned 0. -/
def Syscall.isZeroRead : Syscall → Bool
  | Syscall.read _ _ ret => decide (ret = 0)
  | Syscall.recvfrom _ _ ret _ => decide (ret = 0)
  | _ => false

/-- Whether a call of the trace is a `read` on descriptor `fd`. -/
def Syscall.isReadOn (fd : Int) : Syscall → Bool
  | Syscall.read fd1 _ _ => decide (fd1 = fd)
  | _ => false

/-- A step of the program that, run from state `s`, issues no successful
`write` or `sendto` on descriptor `t` and leaves the descriptors and the
transport mode of the program alone, however it ends. -/
def QuietAt {α : Type} (t : Int) (m : M α) (s : State) : Prop :=
  ∃ calls : List Syscall,
    (m s).state.k.trace = s.k.trace ++ calls ∧
    written t calls = [] ∧
    (m s).state.tunfd = s.tunfd ∧ (m s).state.netfd = s.netfd ∧
    (m s).state.nwk_mode = s.nwk_mode

/-- An operating system with the device on descriptor 3 and a connected stream
socket on descriptor 4; one frame of three bytes waits at the device, and the
stream holds one whole envelope that the coming reads deliver in pieces of one,
one and two bytes. -/
def exKernel : Kernel :=
  { fds := [(3, FdKind.tun), (4, FdKind.tcpConn)],
    tunIn := [[1, 2, 3]],
    stream := ⟨[0, 3, 1, 2, 3], false, [Chunk.upTo 0, Chunk.upTo 0, Chunk.upTo 1]⟩,
    dgrams := [],
    socketRet := 4, connectRet := 0, setsockoptRet := 0, bindRet := 0, listenRet := 0,
    acceptRet := 5,
    trace := [] }

/-- A program state in stream mode on a little endian host, in the forwarding
loop, over `exKernel`. -/
def exState : State :=
  { mode := CLIENT_MODE, nwk_mode := TCP_MODE, si_other := SockAddr.zero,
    tunfd := 3, sockfd := 4, netfd := 4, server := SockAddr.zero,
    nread := 0, nwrite := 0, plength := [0, 0], buffer := List.replicate BUFSIZE 0,
    hostLE := true, k := exKernel }

/-- The state `exState` on a big endian host. -/
def exStateBE : State := { exState with hostLE := false }

/-- The state `exState` with a frame of four bytes at the device and, in the
stream, the envelope of that frame, delivered in pieces of one, one and two
bytes and then the rest. -/
def exFour : State :=
  { exState with k := { exKernel with
      tunIn := [[1, 2, 3, 4]],
      stream := ⟨[0, 4, 1, 2, 3, 4], false, [Chunk.upTo 0, Chunk.upTo 0, Chunk.upTo 1]⟩ } }

/-- The state `exFour` on a big endian host. -/
def exFourBE : State := { exFour with hostLE := false }

/-- The state `exState` when the peer has shut the stream down and nothing is
pending, with nothing at the device. -/
def exClosed : State :=
  { exState with k := { exKernel with tunIn := [], stream := ⟨[], true, []⟩ } }

/-- The state `exState` when the peer has shut the stream down after one byte
of a length. -/
def exHalfLength : State :=
  { exState with k := { exKernel with stream := ⟨[7], true, []⟩ } }

/-- The state `exState` when the peer has shut the stream down after a length
of three and one byte of payload. -/
def exShortPayload : State :=
  { exState with k := { exKernel with stream := ⟨[0, 3, 1], true, [Chunk.upTo 0]⟩ } }

/-- The state `exState` when the stream holds the length 2001 (the bytes 7 and
209) followed by 2001 bytes of payload. -/
def exLong : State :=
  { exState with k := { exKernel with stream := ⟨7 :: 209 :: List.replicate 2001 9, false, []⟩ } }

/-- Two peers. -/
def peerA : SockAddr := ⟨AF_INET, 167772161, 40000⟩

/-- The second peer. -/
def peerB : SockAddr := ⟨AF_INET, 167772162, 40001⟩

/-- A server in datagram mode with the device on descriptor 3 and a bound
datagram socket on descriptor 4, at which one datagram from `peerA` and then
one from `peerB` are queued. -/
def exServerUdp : State :=
  { exState with
    mode := SERVER_MODE, nwk_mode := UDP_MODE,
    k := { exKernel with
      fds := [(3, FdKind.tun), (4, FdKind.udp)],
      tunIn := [],
      dgrams := [⟨peerA, [0, 1]⟩, ⟨peerB, [9]⟩] } }

/-- The state `exServerUdp` when the datagram of `peerA` has one byte and the
datagram of `peerB` is empty. -/
def exEmptyDgram : State :=
  { exServerUdp with k := { exServerUdp.k with dgrams := [⟨peerA, [5]⟩, ⟨peerB, []⟩] } }

/-- A state at the start of the socket set-up: the device is open on
descriptor 3 with one frame waiting, no socket exists yet, `socket` will return
4 and `accept` 5, and the locals `sockfd` and `netfd`, not assigned yet, hold
the values `junk`. -/
def exBoot (junk : Int) : State :=
  { exState with
    sockfd := junk, netfd := junk,
    k := { exKernel with fds := [(3, FdKind.tun)] } }

end Powertun

/-! # Theorems -/

namespace Powertun

/-! ## Running a sequence of steps -/

@[simp] theorem run_pure {α : Type} (a : α) (s : State) : (pure a : M α) s = Res.ok a s := rfl

theorem run_bind {α β : Type} (m : M α) (f : α → M β) (s : State) :
    (m >>= f) s = match m s with
      | Res.ok a s1 => f a s1
      | Res.exit c s1 => Res.exit c s1
      | Res.block s1 => Res.block s1
      | Res.fuel s1 => Res.fuel s1 := rfl

theorem run_bind_ok {α β : Type} {m : M α} {f : α → M β} {s s1 : State} {a : α}
    (h : m s = Res.ok a s1) : (m >>= f) s = f a s1 := by
  rw [run_bind, h]

@[simp] theorem run_getState {β : Type} (f : State → M β) (s : State) :
    (getState >>= f) s = f s s := rfl

@[simp] theorem run_modifyState {β : Type} (g : State → State) (f : Unit → M β) (s : State) :
    (modifyState g >>= f) s = f () (g s) := rfl

@[simp] theorem run_exitWith {α : Type} (c : Nat) (s : State) :
    (exitWith c : M α) s = Res.exit c s := rfl

/-! ## Memory -/

theorem storeAt_storeAt (mem : List Byte) (off : Nat) (c1 c2 : List Byte) :
    storeAt (storeAt mem off c1) (off + c1.length) c2 = storeAt mem off (c1 ++ c2) := by
  unfold storeAt
  rcases Nat.lt_or_ge mem.length off with h | h
  · have h1 : List.drop (off + c1.length) mem = [] := List.drop_eq_nil_of_le (by omega)
    have h2 : List.drop (off + (c1 ++ c2).length) mem = [] :=
      List.drop_eq_nil_of_le (by simp; omega)
    have h3 : List.take off mem = mem := List.take_of_length_le (by omega)
    rw [h1, h2, h3]
    simp only [List.append_nil]
    rw [List.take_of_length_le (by simp; omega), List.drop_eq_nil_of_le (by simp; omega)]
    simp
  · have hl : (List.take off mem ++ c1).length = off + c1.length := by
      simp [List.length_take]; omega
    rw [List.take_left' hl]
    have : off + c1.length + c2.length = (List.take off mem ++ c1).length + c2.length := by
      rw [hl]
    rw [this, List.drop_append, List.drop_drop]
    simp [List.length_append]
    congr 1
    omega

theorem loadAt_storeAt (mem : List Byte) (off : Nat) (data : List Byte)
    (h : off ≤ mem.length) : loadAt (storeAt mem off data) off data.length = data := by
  unfold loadAt storeAt
  have hl : (List.take off mem).length = off := by simp [List.length_take]; omega
  rw [List.append_assoc, List.drop_left' hl, List.take_left' rfl]

/-! ## Reads on the stream -/

theorem delivered_nil (s : State) (buf : Ptr) (rest : List Byte)
    (h : s.k.stream.pending = rest) :
    s.delivered buf [] rest (s.k.stream.sched.drop 0) [] = s := by
  subst h
  cases buf <;> simp [State.delivered, State.store, storeAt]

theorem delivered_delivered (s : State) (buf : Ptr) (d1 d2 r1 r2 : List Byte)
    (sc1 sc2 : List Chunk) (c1 c2 : List Syscall) :
    (s.delivered buf d1 r1 sc1 c1).delivered (buf.add d1.length) d2 r2 sc2 c2
      = s.delivered buf (d1 ++ d2) r2 sc2 (c1 ++ c2) := by
  cases buf <;>
    simp [State.delivered, State.store, Ptr.add, storeAt_storeAt, List.append_assoc]

theorem quota_pos (st : Stream) (count : Nat) (h : 0 < count) : 0 < st.quota count := by
  unfold Stream.quota
  split <;> omega

theorem quota_le (st : Stream) (count : Nat) : st.quota count ≤ count := by
  unfold Stream.quota
  split <;> omega

theorem cread_stream (fd : Int) (buf : Ptr) (left : Int) (s : State)
    (hk : s.k.kind fd = some FdKind.tcpConn)
    (hs : s.k.stream.sched.head? ≠ some Chunk.fail)
    (hp : s.k.stream.pending ≠ []) :
    cread fd buf left TCP_MODE s
      = Res.ok (((s.k.stream.pending.take (s.k.stream.quota left.toNat)).length : Nat) : Int)
          (s.delivered buf (s.k.stream.pending.take (s.k.stream.quota left.toNat))
            (s.k.stream.pending.drop (s.k.stream.quota left.toNat)) s.k.stream.sched.tail
            [Syscall.read fd left.toNat
              ((s.k.stream.pending.take (s.k.stream.quota left.toNat)).length : Nat)]) := by
  have h1 : sys_read fd buf left.toNat s
      = Res.ok (((s.k.stream.pending.take (s.k.stream.quota left.toNat)).length : Nat) : Int)
          (s.delivered buf (s.k.stream.pending.take (s.k.stream.quota left.toNat))
            (s.k.stream.pending.drop (s.k.stream.quota left.toNat)) s.k.stream.sched.tail
            [Syscall.read fd left.toNat
              ((s.k.stream.pending.take (s.k.stream.quota left.toNat)).length : Nat)]) := by
    unfold sys_read
    simp only [hk, hs, hp, if_false]
    cases buf <;> rfl
  unfold cread
  simp only [if_true]
  rw [run_bind_ok h1]
  have : ¬ (((s.k.stream.pending.take (s.k.stream.quota left.toNat)).length : Nat) : Int) < 0 := by
    omega
  simp only [this, if_false, run_pure]

theorem read_n_loop_stream (fd : Int) (n : Int) :
    ∀ (fuel : Nat) (left : Int) (buf : Ptr) (s : State) (data rest : List Byte),
      s.k.kind fd = some FdKind.tcpConn →
      Chunk.fail ∉ s.k.stream.sched →
      s.k.stream.pending = data ++ rest →
      (data.length : Int) = left →
      left.toNat ≤ fuel →
      ∃ j calls, calls.all (Syscall.isReadOn fd) = true ∧
        read_n_loop fd n TCP_MODE fuel left buf s
          = Res.ok n (s.delivered buf data rest (s.k.stream.sched.drop j) calls) := by
  intro fuel
  induction fuel with
  | zero =>
    intro left buf s data rest _ _ hp hl hf
    have hd : data = [] := by
      apply List.eq_nil_of_length_eq_zero
      omega
    subst hd
    refine ⟨0, [], rfl, ?_⟩
    have : ¬ left > 0 := by simp at hl; omega
    simp only [read_n_loop, this, if_false, run_pure]
    rw [delivered_nil s buf rest (by simpa using hp)]
  | succ fuel ih =>
    intro left buf s data rest hk hs hp hl hf
    by_cases hpos : left > 0
    · have hne : s.k.stream.pending ≠ [] := by
        intro h0
        rw [h0] at hp
        have := congrArg List.length hp
        simp at this
        omega
      have hh : s.k.stream.sched.head? ≠ some Chunk.fail := by
        intro h0
        apply hs
        exact List.mem_of_mem_head? (by rw [h0]; rfl)
      have hq1 := quota_pos s.k.stream (left.toNat) (by omega)
      have hq2 := quota_le s.k.stream (left.toNat)
      generalize hq : s.k.stream.quota left.toNat = q at hq1 hq2
      have hc := cread_stream fd buf left s hk hh hne
      rw [hq] at hc
      have htake : s.k.stream.pending.take q = data.take q := by
        rw [hp, List.take_append_of_le_length (by omega)]
      have hdrop : s.k.stream.pending.drop q = data.drop q ++ rest := by
        rw [hp, List.drop_append_of_le_length (by omega)]
      have hlen : (data.take q).length = q := by
        rw [List.length_take]; omega
      rw [htake, hdrop, hlen] at hc
      obtain ⟨j, calls, hcalls, hrec⟩ := ih (left - (q : Int)) (buf.add q)
        (s.delivered buf (data.take q) (data.drop q ++ rest) s.k.stream.sched.tail
          [Syscall.read fd left.toNat (q : Nat)])
        (data.drop q) rest
        (by cases buf <;> simpa [State.delivered, State.store] using hk)
        (by
          intro hmem
          apply hs
          have : Chunk.fail ∈ s.k.stream.sched.tail := by
            cases buf <;> simpa [State.delivered, State.store] using hmem
          exact List.mem_of_mem_tail this)
        (by cases buf <;> simp [State.delivered, State.store])
        (by rw [List.length_drop]; omega)
        (by omega)
      refine ⟨j + 1, Syscall.read fd left.toNat (q : Nat) :: calls, ?_, ?_⟩
      · simp [Syscall.isReadOn] at hcalls ⊢
        exact hcalls
      · simp only [read_n_loop, hpos, if_true]
        rw [run_bind_ok hc]
        have hq0 : ¬ ((q : Nat) : Int) = 0 := by omega
        simp only [hq0, if_false, Int.toNat_ofNat]
        rw [hrec]
        have e := delivered_delivered s buf (data.take q) (data.drop q) (data.drop q ++ rest) rest
          s.k.stream.sched.tail
          ((s.delivered buf (data.take q) (data.drop q ++ rest) s.k.stream.sched.tail
            [Syscall.read fd left.toNat (q : Nat)]).k.stream.sched.drop j)
          [Syscall.read fd left.toNat (q : Nat)] calls
        rw [hlen, List.take_append_drop] at e
        rw [e]
        congr 2
        cases buf <;> simp [State.delivered, State.store]
    · have hd : data = [] := by
        apply List.eq_nil_of_length_eq_zero
        omega
      subst hd
      refine ⟨0, [], rfl, ?_⟩
      simp only [read_n_loop, hpos, if_false, run_pure]
      rw [delivered_nil s buf rest (by simpa using hp)]

theorem read_n_stream (fd : Int) (buf : Ptr) (s : State) (data rest : List Byte)
    (hk : s.k.kind fd = some FdKind.tcpConn)
    (hs : Chunk.fail ∉ s.k.stream.sched)
    (hp : s.k.stream.pending = data ++ rest) :
    ∃ j calls, calls.all (Syscall.isReadOn fd) = true ∧
      read_n fd buf ((data.length : Nat) : Int) TCP_MODE s
        = Res.ok ((data.length : Nat) : Int)
            (s.delivered buf data rest (s.k.stream.sched.drop j) calls) := by
  unfold read_n
  exact read_n_loop_stream fd _ _ _ buf s data rest hk hs hp rfl (by simp)

theorem log_eq_delivered (s : State) (buf : Ptr) (c : Syscall)
    (h : s.k.stream.pending = []) :
    s.log c = s.delivered buf [] [] (s.k.stream.sched.drop 0) [c] := by
  have e : s.k.stream = { s.k.stream with pending := [] } := by rw [← h]
  cases buf <;> simp [State.delivered, State.store, State.log, storeAt, ← e]

theorem read_n_loop_eof (fd : Int) (n : Int) :
    ∀ (fuel : Nat) (left : Int) (buf : Ptr) (s : State) (data : List Byte),
      s.k.kind fd = some FdKind.tcpConn →
      Chunk.fail ∉ s.k.stream.sched →
      s.k.stream.pending = data →
      s.k.stream.closed = true →
      (data.length : Int) < left →
      left.toNat ≤ fuel →
      ∃ j calls, calls.all (Syscall.isReadOn fd) = true ∧
        read_n_loop fd n TCP_MODE fuel left buf s
          = Res.ok 0 (s.delivered buf data [] (s.k.stream.sched.drop j) calls) := by
  intro fuel
  induction fuel with
  | zero =>
    intro left buf s data _ _ _ _ hl hf
    omega
  | succ fuel ih =>
    intro left buf s data hk hs hp hc hl hf
    have hpos : left > 0 := by omega
    have hh : s.k.stream.sched.head? ≠ some Chunk.fail := by
      intro h0
      apply hs
      exact List.mem_of_mem_head? (by rw [h0]; rfl)
    by_cases hne : s.k.stream.pending = []
    · have hd : data = [] := by rw [← hp, hne]
      subst hd
      have h1 : cread fd buf left TCP_MODE s
          = Res.ok 0 (s.log (Syscall.read fd left.toNat 0)) := by
        unfold cread
        simp only [if_true]
        have h2 : sys_read fd buf left.toNat s
            = Res.ok 0 (s.log (Syscall.read fd left.toNat 0)) := by
          unfold sys_read
          simp only [hk, hh, hne, hc, if_false, if_true]
        rw [run_bind_ok h2]
        simp
      refine ⟨0, [Syscall.read fd left.toNat 0], by simp [Syscall.isReadOn], ?_⟩
      simp only [read_n_loop, hpos, if_true]
      rw [run_bind_ok h1]
      simp only [if_true, run_pure]
      rw [log_eq_delivered s buf _ hne]
    · have hq1 := quota_pos s.k.stream (left.toNat) (by omega)
      have hq2 := quota_le s.k.stream (left.toNat)
      generalize hq : s.k.stream.quota left.toNat = q at hq1 hq2
      have hcr := cread_stream fd buf left s hk hh hne
      rw [hq, hp] at hcr
      have hdl : 0 < data.length := by
        rw [hp] at hne
        exact List.length_pos.mpr hne
      have hlen1 : 0 < (data.take q).length := by
        rw [List.length_take]; omega
      have hlen2 : (data.take q).length ≤ data.length := by
        rw [List.length_take]; omega
      have hdrop : data.drop q = data.drop (data.take q).length := by
        rw [List.length_take]
        rcases Nat.le_total q data.length with h | h
        · rw [Nat.min_eq_left h]
        · rw [Nat.min_eq_right h, List.drop_eq_nil_of_le h, List.drop_eq_nil_of_le (le_refl _)]
      generalize hm : (data.take q).length = m at hcr hlen1 hlen2 hdrop
      obtain ⟨j, calls, hcalls, hrec⟩ := ih (left - (m : Int)) (buf.add m)
        (s.delivered buf (data.take q) (data.drop q) s.k.stream.sched.tail
          [Syscall.read fd left.toNat (m : Nat)])
        (data.drop q)
        (by cases buf <;> simpa [State.delivered, State.store] using hk)
        (by
          intro hmem
          apply hs
          have : Chunk.fail ∈ s.k.stream.sched.tail := by
            cases buf <;> simpa [State.delivered, State.store] using hmem
          exact List.mem_of_mem_tail this)
        (by cases buf <;> simp [State.delivered, State.store])
        (by cases buf <;> simpa [State.delivered, State.store] using hc)
        (by rw [hdrop, List.length_drop]; omega)
        (by omega)
      refine ⟨j + 1, Syscall.read fd left.toNat (m : Nat) :: calls, ?_, ?_⟩
      · simp [Syscall.isReadOn] at hcalls ⊢
        exact hcalls
      · simp only [read_n_loop, hpos, if_true]
        rw [run_bind_ok hcr]
        have hq0 : ¬ ((m : Nat) : Int) = 0 := by omega
        simp only [hq0, if_false, Int.toNat_ofNat]
        rw [hrec]
        have e := delivered_delivered s buf (data.take q) (data.drop q) (data.drop q) []
          s.k.stream.sched.tail
          ((s.delivered buf (data.take q) (data.drop q) s.k.stream.sched.tail
            [Syscall.read fd left.toNat (m : Nat)]).k.stream.sched.drop j)
          [Syscall.read fd left.toNat (m : Nat)] calls
        rw [hm, List.take_append_drop] at e
        rw [e]
        congr 2
        cases buf <;> simp [State.delivered, State.store]

theorem read_n_eof (fd : Int) (buf : Ptr) (n : Int) (s : State) (data : List Byte)
    (hk : s.k.kind fd = some FdKind.tcpConn)
    (hs : Chunk.fail ∉ s.k.stream.sched)
    (hp : s.k.stream.pending = data)
    (hc : s.k.stream.closed = true)
    (hl : (data.length : Int) < n) :
    ∃ j calls, calls.all (Syscall.isReadOn fd) = true ∧
      read_n fd buf n TCP_MODE s
        = Res.ok 0 (s.delivered buf data [] (s.k.stream.sched.drop j) calls) := by
  unfold read_n
  exact read_n_loop_eof fd n _ n buf s data hk hs hp hc hl (le_refl _)

/-! ## Byte order -/

theorem u16_bytes_htons (le : Bool) (x : Nat) (h : x < 65536) :
    u16_bytes le (htons le x) = [x / 256, x % 256] := by
  have h1 : x % 65536 / 256 % 256 = x / 256 := by omega
  have h2 : x % 65536 % 256 = x % 256 := by omega
  have h0 : x / 256 % 256 = x / 256 := by omega
  have h3 : (x % 256 * 256 + x / 256) % 256 = x / 256 := by omega
  have h4 : (x % 256 * 256 + x / 256) / 256 % 256 = x % 256 := by
    have ha : x % 256 < 256 := Nat.mod_lt _ (by norm_num)
    have hb : x / 256 < 256 := by omega
    generalize x % 256 = a at ha
    generalize x / 256 = b at hb
    omega
  cases le
  · simp only [u16_bytes, htons, Bool.false_eq_true, if_false, h1, h2]
  · simp only [u16_bytes, htons, bswap16, if_true, h0, h3, h4]

theorem ntohs_u16_of_bytes (le : Bool) (b0 b1 : Byte) (tl : List Byte) :
    ntohs le (u16_of_bytes le (b0 :: b1 :: tl)) = (b0 % 256) * 256 + b1 % 256 := by
  cases le
  · simp only [ntohs, u16_of_bytes, Bool.false_eq_true, if_false, List.getD_cons_zero,
      List.getD_cons_succ]
    omega
  · simp only [ntohs, u16_of_bytes, bswap16, if_true, List.getD_cons_zero,
      List.getD_cons_succ]
    omega

theorem toU16_small (n : Nat) (h : n < 65536) : toU16 (n : Int) = n := by
  unfold toU16
  omega

/-! ## Writes -/

theorem written_append (fd : Int) (a b : List Syscall) :
    written fd (a ++ b) = written fd a ++ written fd b := by
  induction a with
  | nil => rfl
  | cons c a ih =>
    cases c <;> simp [written, ih] <;> split_ifs <;> simp

theorem written_reads (fd fd1 : Int) (calls : List Syscall)
    (h : calls.all (Syscall.isReadOn fd1) = true) : written fd calls = [] := by
  induction calls with
  | nil => rfl
  | cons c calls ih =>
    rw [List.all_cons, Bool.and_eq_true] at h
    obtain ⟨h1, h2⟩ := h
    cases c <;> first
      | (simp only [written]; exact ih h2)
      | (simp [Syscall.isReadOn] at h1)

theorem cwrite_tcp (fd : Int) (buf : Ptr) (n : Int) (mode : Nat) (s : State)
    (hm : s.nwk_mode = TCP_MODE) (h0 : 0 ≤ n)
    (hk : s.k.kind fd = some FdKind.tcpConn) :
    cwrite fd buf n mode s
      = Res.ok n (s.log (Syscall.write fd (s.load buf n.toNat) n)) := by
  unfold cwrite
  simp only [run_getState, hm, if_true]
  have h1 : sys_write fd buf n.toNat s
      = Res.ok n (s.log (Syscall.write fd (s.load buf n.toNat) n)) := by
    unfold sys_write
    simp [hk, Int.toNat_of_nonneg h0]
  rw [run_bind_ok h1]
  have : ¬ n < 0 := by omega
  simp only [this, if_false, run_pure]

/-- A `cwrite` on the device in stream mode: a frame of at least `TUN_PI_LEN`
bytes is taken; with a shorter one the `write` fails and `cwrite` calls
`exit(1)`. -/
theorem cwrite_tun (fd : Int) (buf : Ptr) (n : Nat) (mode : Nat) (s : State)
    (hm : s.nwk_mode = TCP_MODE)
    (hk : s.k.kind fd = some FdKind.tun) :
    cwrite fd buf (n : Int) mode s
      = if n < TUN_PI_LEN then Res.exit 1 (s.log (Syscall.write fd (s.load buf n) (-1)))
        else Res.ok (n : Int) (s.log (Syscall.write fd (s.load buf n) (n : Int))) := by
  unfold cwrite
  simp only [run_getState, hm, if_true]
  by_cases hlt : n < TUN_PI_LEN
  · have h1 : sys_write fd buf ((n : Int)).toNat s
        = Res.ok (-1) (s.log (Syscall.write fd (s.load buf n) (-1))) := by
      unfold sys_write
      simp [hk, hlt]
    rw [run_bind_ok h1]
    simp [hlt]
  · have h1 : sys_write fd buf ((n : Int)).toNat s
        = Res.ok (n : Int) (s.log (Syscall.write fd (s.load buf n) (n : Int))) := by
      unfold sys_write
      simp [hk, hlt]
    rw [run_bind_ok h1]
    have : ¬ ((n : Nat) : Int) < 0 := by omega
    simp only [this, hlt, if_false, run_pure]

theorem cwrite_udp (fd : Int) (buf : Ptr) (n : Int) (mode : Nat) (s : State)
    (hm : s.nwk_mode ≠ TCP_MODE) (h0 : 0 ≤ n)
    (hk : s.k.kind fd = some FdKind.udp) :
    cwrite fd buf n mode s
      = Res.ok n (s.log (Syscall.sendto fd (s.load buf n.toNat) s.si_other n)) := by
  unfold cwrite
  simp only [run_getState, hm, if_false]
  have h1 : sys_sendto fd buf n.toNat s
      = Res.ok n (s.log (Syscall.sendto fd (s.load buf n.toNat) s.si_other n)) := by
    unfold sys_sendto
    simp [hk, Int.toNat_of_nonneg h0]
  rw [run_bind_ok h1]
  have : ¬ n < 0 := by omega
  simp only [this, if_false, run_pure]

theorem cread_tun (s : State) (fd : Int) (buf : Ptr) (n : Nat) (p : List Byte)
    (q : List (List Byte))
    (hk : s.k.kind fd = some FdKind.tun) (hq : s.k.tunIn = p :: q) :
    cread fd buf (n : Int) TCP_MODE s
      = Res.ok (((p.take n).length : Nat) : Int)
          (({ s with k := { s.k with tunIn := q } }.store buf (p.take n)).log
            (Syscall.read fd n (((p.take n).length : Nat) : Int))) := by
  unfold cread
  simp only [if_true]
  have h1 : sys_read fd buf ((n : Int)).toNat s
      = Res.ok (((p.take n).length : Nat) : Int)
          (({ s with k := { s.k with tunIn := q } }.store buf (p.take n)).log
            (Syscall.read fd n (((p.take n).length : Nat) : Int))) := by
    unfold sys_read
    simp [hk, hq]
  rw [run_bind_ok h1]
  have : ¬ (((p.take n).length : Nat) : Int) < 0 := by omega
  simp only [this, if_false, run_pure]

/-- The device branch in stream mode: one read on the device, then the two
bytes of the length and the frame, each with one `write` on the socket. -/
theorem tun_branch_tcp (s : State) (p : List Byte) (q : List (List Byte))
    (hk : s.k.kind s.tunfd = some FdKind.tun) (hq : s.k.tunIn = p :: q)
    (hp : p.length ≤ BUFSIZE) (hm : s.nwk_mode = TCP_MODE)
    (hn : s.k.kind s.netfd = some FdKind.tcpConn) :
    ∃ s1, tun_branch s = Res.ok () s1 ∧
      s1.k.trace = s.k.trace ++ [Syscall.read s.tunfd BUFSIZE (p.length : Int),
        Syscall.write s.netfd [p.length / 256, p.length % 256] 2,
        Syscall.write s.netfd p (p.length : Int)] := by
  have hb : BUFSIZE = 2000 := rfl
  have htake : p.take BUFSIZE = p := List.take_of_length_le hp
  have h1 := cread_tun s s.tunfd (Ptr.buffer 0) BUFSIZE p q hk hq
  rw [htake] at h1
  unfold tun_branch
  simp only [run_getState]
  rw [run_bind_ok h1]
  simp only [run_modifyState, run_getState]
  rw [toU16_small _ (by omega), u16_bytes_htons _ _ (by omega)]
  rw [run_bind_ok (cwrite_tcp _ _ 2 _ _ (by simpa [State.log, State.store] using hm)
    (by omega) (by simpa [State.log, State.store, Kernel.kind] using hn))]
  simp only [run_modifyState, run_getState]
  rw [run_bind_ok (cwrite_tcp _ _ _ _ _ (by simpa [State.log, State.store] using hm)
    (by omega) (by simpa [State.log, State.store, Kernel.kind] using hn))]
  refine ⟨_, rfl, ?_⟩
  simp [State.log, State.store, State.load, loadAt, storeAt]

/-- The device branch in datagram mode: one read on the device, then the two
bytes of the length and the frame, each with one `sendto` to `si_other`. -/
theorem tun_branch_udp (s : State) (p : List Byte) (q : List (List Byte))
    (hk : s.k.kind s.tunfd = some FdKind.tun) (hq : s.k.tunIn = p :: q)
    (hp : p.length ≤ BUFSIZE) (hm : s.nwk_mode ≠ TCP_MODE)
    (hn : s.k.kind s.netfd = some FdKind.udp) :
    ∃ s1, tun_branch s = Res.ok () s1 ∧
      s1.k.trace = s.k.trace ++ [Syscall.read s.tunfd BUFSIZE (p.length : Int),
        Syscall.sendto s.netfd [p.length / 256, p.length % 256] s.si_other 2,
        Syscall.sendto s.netfd p s.si_other (p.length : Int)] := by
  have hb : BUFSIZE = 2000 := rfl
  have htake : p.take BUFSIZE = p := List.take_of_length_le hp
  have h1 := cread_tun s s.tunfd (Ptr.buffer 0) BUFSIZE p q hk hq
  rw [htake] at h1
  unfold tun_branch
  simp only [run_getState]
  rw [run_bind_ok h1]
  simp only [run_modifyState, run_getState]
  rw [toU16_small _ (by omega), u16_bytes_htons _ _ (by omega)]
  rw [run_bind_ok (cwrite_udp _ _ 2 _ _ (by simpa [State.log, State.store] using hm)
    (by omega) (by simpa [State.log, State.store, Kernel.kind] using hn))]
  simp only [run_modifyState, run_getState]
  rw [run_bind_ok (cwrite_udp _ _ _ _ _ (by simpa [State.log, State.store] using hm)
    (by omega) (by simpa [State.log, State.store, Kernel.kind] using hn))]
  refine ⟨_, rfl, ?_⟩
  simp [State.log, State.store, State.load, loadAt, storeAt]

/-! ## The network branch in stream mode -/

theorem mem_sched_delivered (s : State) (buf : Ptr) (d r : List Byte) (j : Nat)
    (c : List Syscall) (hs : Chunk.fail ∉ s.k.stream.sched) :
    Chunk.fail ∉ (s.delivered buf d r (s.k.stream.sched.drop j) c).k.stream.sched := by
  intro h
  apply hs
  have : Chunk.fail ∈ s.k.stream.sched.drop j := by
    cases buf <;> simpa [State.delivered, State.store] using h
  exact List.mem_of_mem_drop this

/-- A whole envelope is pending: the branch reads the two bytes of the length
and the payload with `read` calls on the socket, then hands the payload to the
device with one `write`; the loop goes on when the device takes the frame, and
`cwrite` calls `exit(1)` when the frame is shorter than `TUN_PI_LEN`. -/
theorem net_branch_decodes (s : State) (b0 b1 : Byte) (payload rest : List Byte)
    (hm : s.nwk_mode = TCP_MODE)
    (hn : s.k.kind s.netfd = some FdKind.tcpConn)
    (ht : s.k.kind s.tunfd = some FdKind.tun)
    (hs : Chunk.fail ∉ s.k.stream.sched)
    (hp : s.k.stream.pending = b0 :: b1 :: (payload ++ rest))
    (hl : payload.length = b0 % 256 * 256 + b1 % 256) :
    ∃ s1 calls,
      net_branch s
        = (if payload.length < TUN_PI_LEN then Res.exit 1 s1 else Res.ok false s1) ∧
      calls.all (Syscall.isReadOn s.netfd) = true ∧
      s1.k.trace = s.k.trace ++ calls ++ [Syscall.write s.tunfd payload
        (if payload.length < TUN_PI_LEN then -1 else (payload.length : Int))] ∧
      s1.k.stream.pending = rest ∧
      s1.buffer = storeAt s.buffer 0 payload := by
  obtain ⟨j1, c1, hc1, h1⟩ := read_n_stream s.netfd (Ptr.plength 0) s [b0, b1] (payload ++ rest)
    hn hs (by simpa using hp)
  have e2 : (([b0, b1].length : Nat) : Int) = 2 := rfl
  rw [e2] at h1
  have e3 : toU16 2 = 2 := by decide
  unfold net_branch
  simp only [run_getState]
  rw [hm, run_bind_ok h1]
  simp only [run_modifyState, run_getState, e3]
  have e4 : ¬ (2 : Nat) = 0 := by decide
  simp only [e4, if_false]
  have g1 : (s.delivered (Ptr.plength 0) [b0, b1] (payload ++ rest)
      (s.k.stream.sched.drop j1) c1).netfd = s.netfd := rfl
  have g3 : (s.delivered (Ptr.plength 0) [b0, b1] (payload ++ rest)
      (s.k.stream.sched.drop j1) c1).nwk_mode = TCP_MODE := hm
  have g9 : ntohs (s.delivered (Ptr.plength 0) [b0, b1] (payload ++ rest)
        (s.k.stream.sched.drop j1) c1).hostLE
      (u16_of_bytes (s.delivered (Ptr.plength 0) [b0, b1] (payload ++ rest)
        (s.k.stream.sched.drop j1) c1).hostLE
        (s.delivered (Ptr.plength 0) [b0, b1] (payload ++ rest)
          (s.k.stream.sched.drop j1) c1).plength) = payload.length := by
    rw [hl]
    exact ntohs_u16_of_bytes _ b0 b1 _
  generalize hS1 : ({ s.delivered (Ptr.plength 0) [b0, b1] (payload ++ rest)
      (s.k.stream.sched.drop j1) c1 with nread := 2 } : State) = S1
  rw [g9, g1, g3]
  have f1 : S1.netfd = s.netfd := by subst hS1; rfl
  have f2 : S1.tunfd = s.tunfd := by subst hS1; rfl
  have f3 : S1.nwk_mode = TCP_MODE := by subst hS1; exact hm
  have f4 : S1.k.fds = s.k.fds := by subst hS1; rfl
  have f5 : S1.k.stream.pending = payload ++ rest := by subst hS1; rfl
  have f6 : Chunk.fail ∉ S1.k.stream.sched := by
    subst hS1
    exact mem_sched_delivered s (Ptr.plength 0) [b0, b1] (payload ++ rest) j1 c1 hs
  have f7 : S1.k.trace = s.k.trace ++ c1 := by subst hS1; rfl
  have f8 : S1.buffer = s.buffer := by subst hS1; rfl
  have hn1 : S1.k.kind s.netfd = some FdKind.tcpConn := by
    unfold Kernel.kind; rw [f4]; exact hn
  have ht1 : S1.k.kind S1.tunfd = some FdKind.tun := by
    rw [f2]; unfold Kernel.kind; rw [f4]; exact ht
  obtain ⟨j2, c2, hc2, h2⟩ := read_n_stream s.netfd (Ptr.buffer 0) S1 payload rest hn1 f6 f5
  rw [run_bind_ok h2]
  simp only [run_modifyState, run_getState]
  have hlt : payload.length < 65536 := by omega
  rw [toU16_small _ hlt]
  rw [run_bind, cwrite_tun _ _ _ _ _ (by simpa [State.delivered, State.store] using f3)
    (by simpa [State.delivered, State.store, Kernel.kind, f4, f2] using ht)]
  by_cases h4 : payload.length < TUN_PI_LEN
  · simp only [h4, if_true]
    refine ⟨_, c1 ++ c2, rfl, ?_, ?_, ?_, ?_⟩
    · simp only [List.all_append, hc1, hc2, Bool.and_self]
    · simp [State.log, State.delivered, State.store, State.load, loadAt, storeAt, f7, f2, f8]
    · simp [State.log, State.delivered, State.store]
    · simp [State.log, State.delivered, State.store, f8]
  · simp only [h4, if_false, run_modifyState, run_pure]
    refine ⟨_, c1 ++ c2, rfl, ?_, ?_, ?_, ?_⟩
    · simp only [List.all_append, hc1, hc2, Bool.and_self]
    · simp [State.log, State.delivered, State.store, State.load, loadAt, storeAt, f7, f2, f8]
    · simp [State.log, State.delivered, State.store]
    · simp [State.log, State.delivered, State.store, f8]

/-- The stream ends before the two bytes of the length are complete: the branch
leaves the loop, and it has only issued `read` calls on the socket. -/
theorem net_branch_eof_header (s : State) (data : List Byte)
    (hm : s.nwk_mode = TCP_MODE)
    (hn : s.k.kind s.netfd = some FdKind.tcpConn)
    (hs : Chunk.fail ∉ s.k.stream.sched)
    (hp : s.k.stream.pending = data)
    (hc : s.k.stream.closed = true)
    (hl : data.length < 2) :
    ∃ s1 calls, net_branch s = Res.ok true s1 ∧
      calls.all (Syscall.isReadOn s.netfd) = true ∧
      s1.k.trace = s.k.trace ++ calls := by
  obtain ⟨j1, c1, hc1, h1⟩ := read_n_eof s.netfd (Ptr.plength 0) 2 s data hn hs hp hc
    (by omega)
  have e3 : toU16 0 = 0 := by decide
  unfold net_branch
  simp only [run_getState]
  rw [hm, run_bind_ok h1]
  simp only [run_modifyState, run_getState, e3, if_true, run_pure]
  exact ⟨_, c1, rfl, hc1, rfl⟩

/-- The stream ends inside the payload: the second `read_n` returns 0, the
branch does not take the `break` but calls `write` on the device with length 0;
the device rejects the empty frame and `cwrite` calls `exit(1)`. -/
theorem net_branch_short_payload (s : State) (b0 b1 : Byte) (part : List Byte)
    (hm : s.nwk_mode = TCP_MODE)
    (hn : s.k.kind s.netfd = some FdKind.tcpConn)
    (ht : s.k.kind s.tunfd = some FdKind.tun)
    (hs : Chunk.fail ∉ s.k.stream.sched)
    (hp : s.k.stream.pending = b0 :: b1 :: part)
    (hc : s.k.stream.closed = true)
    (hl : part.length < b0 % 256 * 256 + b1 % 256) :
    ∃ s1 calls, net_branch s = Res.exit 1 s1 ∧
      calls.all (Syscall.isReadOn s.netfd) = true ∧
      s1.k.trace = s.k.trace ++ calls ++ [Syscall.write s.tunfd [] (-1)] ∧
      s1.k.stream.pending = [] := by
  obtain ⟨j1, c1, hc1, h1⟩ := read_n_stream s.netfd (Ptr.plength 0) s [b0, b1] part
    hn hs (by simpa using hp)
  have e2 : (([b0, b1].length : Nat) : Int) = 2 := rfl
  rw [e2] at h1
  have e3 : toU16 2 = 2 := by decide
  have e5 : toU16 0 = 0 := by decide
  unfold net_branch
  simp only [run_getState]
  rw [hm, run_bind_ok h1]
  simp only [run_modifyState, run_getState, e3]
  have e4 : ¬ (2 : Nat) = 0 := by decide
  simp only [e4, if_false]
  have g1 : (s.delivered (Ptr.plength 0) [b0, b1] part
      (s.k.stream.sched.drop j1) c1).netfd = s.netfd := rfl
  have g3 : (s.delivered (Ptr.plength 0) [b0, b1] part
      (s.k.stream.sched.drop j1) c1).nwk_mode = TCP_MODE := hm
  have g9 : ntohs (s.delivered (Ptr.plength 0) [b0, b1] part
        (s.k.stream.sched.drop j1) c1).hostLE
      (u16_of_bytes (s.delivered (Ptr.plength 0) [b0, b1] part
        (s.k.stream.sched.drop j1) c1).hostLE
        (s.delivered (Ptr.plength 0) [b0, b1] part
          (s.k.stream.sched.drop j1) c1).plength) = b0 % 256 * 256 + b1 % 256 :=
    ntohs_u16_of_bytes _ b0 b1 _
  generalize hS1 : ({ s.delivered (Ptr.plength 0) [b0, b1] part
      (s.k.stream.sched.drop j1) c1 with nread := 2 } : State) = S1
  rw [g9, g1, g3]
  have f2 : S1.tunfd = s.tunfd := by subst hS1; rfl
  have f3 : S1.nwk_mode = TCP_MODE := by subst hS1; exact hm
  have f4 : S1.k.fds = s.k.fds := by subst hS1; rfl
  have f5 : S1.k.stream.pending = part := by subst hS1; rfl
  have f5c : S1.k.stream.closed = true := by subst hS1; exact hc
  have f6 : Chunk.fail ∉ S1.k.stream.sched := by
    subst hS1
    exact mem_sched_delivered s (Ptr.plength 0) [b0, b1] part j1 c1 hs
  have f7 : S1.k.trace = s.k.trace ++ c1 := by subst hS1; rfl
  have hn1 : S1.k.kind s.netfd = some FdKind.tcpConn := by
    unfold Kernel.kind; rw [f4]; exact hn
  obtain ⟨j2, c2, hc2, h2⟩ := read_n_eof s.netfd (Ptr.buffer 0)
    ((b0 % 256 * 256 + b1 % 256 : Nat) : Int) S1 part hn1 f6 f5 f5c (by omega)
  rw [run_bind_ok h2]
  simp only [run_modifyState, run_getState, e5]
  rw [run_bind, cwrite_tun _ _ 0 _ _ (by simpa [State.delivered, State.store] using f3)
    (by simpa [State.delivered, State.store, Kernel.kind, f4, f2] using ht)]
  have e7 : (0 : Nat) < TUN_PI_LEN := by decide
  simp only [e7, if_true]
  refine ⟨_, c1 ++ c2, rfl, ?_, ?_, ?_⟩
  · simp only [List.all_append, hc1, hc2, Bool.and_self]
  · simp [State.log, State.delivered, State.store, State.load, loadAt, f7, f2]
  · simp [State.log, State.delivered, State.store]

/-! ## `read_n` on every descriptor: it ends, and with `n` or 0 -/

theorem sys_read_spec (fd : Int) (buf : Ptr) (c : Nat) (s : State) :
    (∃ r s1, sys_read fd buf c s = Res.ok r s1 ∧ r ≤ (c : Int)) ∨
      (∃ s1, sys_read fd buf c s = Res.block s1) := by
  unfold sys_read
  split
  · split
    · exact Or.inr ⟨_, rfl⟩
    · exact Or.inl ⟨_, _, rfl, by simp [List.length_take]⟩
  · dsimp only
    split_ifs
    · exact Or.inl ⟨_, _, rfl, by omega⟩
    · exact Or.inl ⟨_, _, rfl, by omega⟩
    · exact Or.inr ⟨_, rfl⟩
    · refine Or.inl ⟨_, _, rfl, ?_⟩
      have := quota_le s.k.stream c
      simp [List.length_take]
      omega
  · split
    · exact Or.inr ⟨_, rfl⟩
    · exact Or.inl ⟨_, _, rfl, by simp [List.length_take]⟩
  · exact Or.inl ⟨_, _, rfl, by omega⟩

theorem sys_recvfrom_spec (fd : Int) (buf : Ptr) (c : Nat) (s : State) :
    (∃ r s1, sys_recvfrom fd buf c s = Res.ok r s1 ∧ r ≤ (c : Int)) ∨
      (∃ s1, sys_recvfrom fd buf c s = Res.block s1) := by
  unfold sys_recvfrom
  split
  · split
    · exact Or.inr ⟨_, rfl⟩
    · exact Or.inl ⟨_, _, rfl, by simp [List.length_take]⟩
  · dsimp only
    split_ifs
    · exact Or.inl ⟨_, _, rfl, by omega⟩
    · exact Or.inl ⟨_, _, rfl, by omega⟩
    · exact Or.inr ⟨_, rfl⟩
    · refine Or.inl ⟨_, _, rfl, ?_⟩
      have := quota_le s.k.stream c
      simp [List.length_take]
      omega
  · exact Or.inl ⟨_, _, rfl, by omega⟩

/-- Every outcome of `cread`: a result between 0 and the count asked for,
`exit(1)`, or a call that never returns. -/
theorem cread_spec (fd : Int) (buf : Ptr) (left : Int) (mode : Nat) (s : State) :
    (∃ r s1, cread fd buf left mode s = Res.ok r s1 ∧ 0 ≤ r ∧ r ≤ (left.toNat : Int)) ∨
      (∃ s1, cread fd buf left mode s = Res.exit 1 s1) ∨
      (∃ s1, cread fd buf left mode s = Res.block s1) := by
  unfold cread
  split
  · rcases sys_read_spec fd buf left.toNat s with ⟨r, s1, h, hr⟩ | ⟨s1, h⟩
    · rw [run_bind_ok h]
      by_cases h0 : r < 0
      · simp only [h0, if_true]
        exact Or.inr (Or.inl ⟨_, rfl⟩)
      · simp only [h0, if_false]
        exact Or.inl ⟨r, s1, rfl, by omega, hr⟩
    · rw [run_bind, h]
      exact Or.inr (Or.inr ⟨_, rfl⟩)
  · rcases sys_recvfrom_spec fd buf left.toNat s with ⟨r, s1, h, hr⟩ | ⟨s1, h⟩
    · rw [run_bind_ok h]
      by_cases h0 : r < 0
      · simp only [h0, if_true]
        exact Or.inr (Or.inl ⟨_, rfl⟩)
      · simp only [h0, if_false]
        exact Or.inl ⟨r, s1, rfl, by omega, hr⟩
    · rw [run_bind, h]
      exact Or.inr (Or.inr ⟨_, rfl⟩)

/-- Every outcome of the loop of `read_n` when the bound on the iterations is
at least `left`: the result `n` or 0, `exit(1)`, or a call that never returns;
the bound is never reached. -/
theorem read_n_loop_spec (fd : Int) (n : Int) (mode : Nat) :
    ∀ (fuel : Nat) (left : Int) (buf : Ptr) (s : State), left.toNat ≤ fuel →
      (∃ r s1, read_n_loop fd n mode fuel left buf s = Res.ok r s1 ∧ (r = n ∨ r = 0)) ∨
        (∃ s1, read_n_loop fd n mode fuel left buf s = Res.exit 1 s1) ∨
        (∃ s1, read_n_loop fd n mode fuel left buf s = Res.block s1) := by
  intro fuel
  induction fuel with
  | zero =>
    intro left buf s hf
    have : ¬ left > 0 := by omega
    simp only [read_n_loop, this, if_false]
    exact Or.inl ⟨n, s, rfl, Or.inl rfl⟩
  | succ fuel ih =>
    intro left buf s hf
    by_cases hpos : left > 0
    · simp only [read_n_loop, hpos, if_true]
      rcases cread_spec fd buf left mode s with ⟨r, s1, h, hr0, hr1⟩ | ⟨s1, h⟩ | ⟨s1, h⟩
      · rw [run_bind_ok h]
        by_cases hz : r = 0
        · simp only [hz, if_true]
          exact Or.inl ⟨0, s1, rfl, Or.inr rfl⟩
        · simp only [hz, if_false]
          exact ih (left - r) (buf.add r.toNat) s1 (by omega)
      · rw [run_bind, h]
        exact Or.inr (Or.inl ⟨_, rfl⟩)
      · rw [run_bind, h]
        exact Or.inr (Or.inr ⟨_, rfl⟩)
    · simp only [read_n_loop, hpos, if_false]
      exact Or.inl ⟨n, s, rfl, Or.inl rfl⟩

theorem read_n_spec (fd : Int) (buf : Ptr) (n : Int) (mode : Nat) (s : State) :
    (∃ r s1, read_n fd buf n mode s = Res.ok r s1 ∧ (r = n ∨ r = 0)) ∨
      (∃ s1, read_n fd buf n mode s = Res.exit 1 s1) ∨
      (∃ s1, read_n fd buf n mode s = Res.block s1) := by
  unfold read_n
  exact read_n_loop_spec fd n mode n.toNat n buf s (le_refl _)

/-! ## The send target in datagram mode -/

theorem quiet_pure {α : Type} (t : Int) (a : α) (s : State) :
    QuietAt t (pure a : M α) s :=
  ⟨[], by simp [Res.state], rfl, rfl, rfl, rfl⟩

theorem quiet_exitWith {α : Type} (t : Int) (c : Nat) (s : State) :
    QuietAt t (exitWith c : M α) s :=
  ⟨[], by simp [Res.state], rfl, rfl, rfl, rfl⟩

theorem quiet_bind {α β : Type} {t : Int} {m : M α} {f : α → M β} {s : State}
    (hm : QuietAt t m s)
    (hf : ∀ a s1, m s = Res.ok a s1 → s1.tunfd = s.tunfd → s1.netfd = s.netfd →
      s1.nwk_mode = s.nwk_mode → QuietAt t (f a) s1) :
    QuietAt t (m >>= f) s := by
  obtain ⟨c1, h1, h2, h3, h4, h5⟩ := hm
  unfold QuietAt
  rw [run_bind]
  cases hr : m s with
  | ok a s1 =>
    rw [hr] at h1 h3 h4 h5
    simp only [Res.state] at h1 h3 h4 h5
    obtain ⟨c2, g1, g2, g3, g4, g5⟩ := hf a s1 hr h3 h4 h5
    refine ⟨c1 ++ c2, ?_, ?_, ?_, ?_, ?_⟩
    · simp only [g1, h1, List.append_assoc]
    · rw [written_append, h2, g2]
      rfl
    · rw [g3, h3]
    · rw [g4, h4]
    · rw [g5, h5]
  | exit c s1 =>
    rw [hr] at h1 h3 h4 h5
    exact ⟨c1, h1, h2, h3, h4, h5⟩
  | block s1 =>
    rw [hr] at h1 h3 h4 h5
    exact ⟨c1, h1, h2, h3, h4, h5⟩
  | fuel s1 =>
    rw [hr] at h1 h3 h4 h5
    exact ⟨c1, h1, h2, h3, h4, h5⟩

theorem quiet_sys_read (t fd : Int) (buf : Ptr) (c : Nat) (s : State) :
    QuietAt t (sys_read fd buf c) s := by
  unfold QuietAt Powertun.sys_read
  cases buf <;> dsimp only <;> (repeat' split) <;>
    first
    | exact ⟨[_], rfl, rfl, rfl, rfl, rfl⟩
    | exact ⟨[], by simp [Res.state], rfl, rfl, rfl, rfl⟩

theorem quiet_sys_recvfrom (t fd : Int) (buf : Ptr) (c : Nat) (s : State) :
    QuietAt t (sys_recvfrom fd buf c) s := by
  unfold QuietAt Powertun.sys_recvfrom
  cases buf <;> dsimp only <;> (repeat' split) <;>
    first
    | exact ⟨[_], rfl, rfl, rfl, rfl, rfl⟩
    | exact ⟨[], by simp [Res.state], rfl, rfl, rfl, rfl⟩

theorem quiet_sys_write (t fd : Int) (buf : Ptr) (n : Nat) (s : State) (h : fd ≠ t) :
    QuietAt t (sys_write fd buf n) s := by
  unfold QuietAt Powertun.sys_write
  dsimp only
  (repeat' split) <;> exact ⟨[_], rfl, by simp [written, h], rfl, rfl, rfl⟩

theorem quiet_sys_sendto (t fd : Int) (buf : Ptr) (n : Nat) (s : State) (h : fd ≠ t) :
    QuietAt t (sys_sendto fd buf n) s := by
  unfold QuietAt Powertun.sys_sendto
  dsimp only
  split <;> exact ⟨[_], rfl, by simp [written, h], rfl, rfl, rfl⟩

theorem quiet_cread (t fd : Int) (buf : Ptr) (n : Int) (mode : Nat) (s : State) :
    QuietAt t (cread fd buf n mode) s := by
  unfold Powertun.cread
  split
  · refine quiet_bind (quiet_sys_read t fd buf _ s) (fun r s1 _ _ _ _ => ?_)
    split
    · exact quiet_exitWith t 1 s1
    · exact quiet_pure t r s1
  · refine quiet_bind (quiet_sys_recvfrom t fd buf _ s) (fun r s1 _ _ _ _ => ?_)
    split
    · exact quiet_exitWith t 1 s1
    · exact quiet_pure t r s1

theorem quiet_cwrite (t fd : Int) (buf : Ptr) (n : Int) (mode : Nat) (s : State)
    (h : fd ≠ t) : QuietAt t (cwrite fd buf n mode) s := by
  unfold Powertun.cwrite QuietAt
  rw [run_getState]
  split
  · refine quiet_bind (quiet_sys_write t fd buf _ s h) (fun r s1 _ _ _ _ => ?_)
    split
    · exact quiet_exitWith t 1 s1
    · exact quiet_pure t r s1
  · refine quiet_bind (quiet_sys_sendto t fd buf _ s h) (fun r s1 _ _ _ _ => ?_)
    split
    · exact quiet_exitWith t 1 s1
    · exact quiet_pure t r s1

theorem quiet_modifyState (t : Int) (g : State → State) (s : State)
    (h : (g s).k.trace = s.k.trace ∧ (g s).tunfd = s.tunfd ∧ (g s).netfd = s.netfd ∧
      (g s).nwk_mode = s.nwk_mode) : QuietAt t (modifyState g) s :=
  ⟨[], by simp [Res.state, Powertun.modifyState, h.1], rfl, h.2.1, h.2.2.1, h.2.2.2⟩

/-- The device branch issues no `write` or `sendto` on a descriptor other than
the network descriptor. -/
theorem quiet_tun_branch (t : Int) (s : State) (h : s.netfd ≠ t) :
    QuietAt t tun_branch s := by
  unfold Powertun.tun_branch QuietAt
  rw [run_getState]
  refine quiet_bind (quiet_cread t _ _ _ _ s) (fun r s1 _ _ e1 _ => ?_)
  refine quiet_bind (quiet_modifyState t _ s1 ⟨rfl, rfl, rfl, rfl⟩) (fun _ s2 hs2 _ _ _ => ?_)
  refine quiet_bind (quiet_modifyState t _ s2 ⟨rfl, rfl, rfl, rfl⟩) (fun _ s3 hs3 _ _ _ => ?_)
  unfold QuietAt
  rw [run_getState]
  have e3 : s3.netfd = s.netfd := by
    simp only [Powertun.modifyState, Res.ok.injEq, true_and] at hs2 hs3
    rw [← hs3, ← hs2]
    exact e1
  refine quiet_bind (quiet_cwrite t _ _ _ _ s3 (by rw [e3]; exact h))
    (fun w s4 _ _ e4 _ => ?_)
  refine quiet_bind (quiet_modifyState t _ s4 ⟨rfl, rfl, rfl, rfl⟩) (fun _ s5 hs5 _ _ _ => ?_)
  unfold QuietAt
  rw [run_getState]
  have e5 : s5.netfd = s.netfd := by
    simp only [Powertun.modifyState, Res.ok.injEq, true_and] at hs5
    rw [← hs5]
    show s4.netfd = s.netfd
    rw [e4, e3]
  refine quiet_bind (quiet_cwrite t _ _ _ _ s5 (by rw [e5]; exact h))
    (fun w s6 _ _ _ _ => ?_)
  exact quiet_modifyState t _ s6 ⟨rfl, rfl, rfl, rfl⟩

theorem sys_read_ok_trace (fd : Int) (buf : Ptr) (c : Nat) (s s1 : State) (r : Int)
    (h : sys_read fd buf c s = Res.ok r s1) :
    s1.k.trace = s.k.trace ++ [Syscall.read fd c r] := by
  unfold Powertun.sys_read at h
  cases buf <;> dsimp only at h <;> (repeat' split at h) <;>
    first
    | (simp only [Res.ok.injEq] at h
       obtain ⟨h1, h2⟩ := h
       subst h1 h2
       rfl)
    | (exact absurd h (by simp))

theorem forward_break (sel : SelRes) (rest : List SelRes) (s s1 : State)
    (h : loop_iter sel s = Res.ok true s1) :
    forward (sel :: rest) s = Res.ok (some EXIT_SUCCESS) s1 := by
  unfold forward main_loop
  rw [run_bind, run_bind_ok h]
  rfl

theorem loop_iter_net (s : State) :
    loop_iter (SelRes.ready false true) s = net_branch s := rfl

theorem sys_recvfrom_ok_trace (fd : Int) (buf : Ptr) (c : Nat) (s s1 : State) (r : Int)
    (h : sys_recvfrom fd buf c s = Res.ok r s1) :
    ∃ src, s1.k.trace = s.k.trace ++ [Syscall.recvfrom fd c r src] := by
  unfold Powertun.sys_recvfrom at h
  cases buf <;> dsimp only at h <;> (repeat' split at h) <;>
    first
    | (simp only [Res.ok.injEq] at h
       obtain ⟨h1, h2⟩ := h
       subst h1 h2
       exact ⟨_, rfl⟩)
    | (exact absurd h (by simp))

/-- A `cread` that returns adds one call to the trace, and that call is a read
that returned 0 exactly when `cread` returns 0. -/
theorem cread_ok_trace (fd : Int) (buf : Ptr) (left : Int) (mode : Nat) (s s1 : State)
    (r : Int) (h : cread fd buf left mode s = Res.ok r s1) :
    ∃ c, s1.k.trace = s.k.trace ++ [c] ∧ c.isZeroRead = decide (r = 0) := by
  unfold cread at h
  split at h
  · rcases sys_read_spec fd buf left.toNat s with ⟨r0, s0, h0, _⟩ | ⟨s0, h0⟩
    · rw [run_bind_ok h0] at h
      by_cases hneg : r0 < 0
      · simp [hneg] at h
      · simp only [hneg, if_false, run_pure, Res.ok.injEq] at h
        obtain ⟨e1, e2⟩ := h
        subst e1 e2
        exact ⟨_, sys_read_ok_trace _ _ _ _ _ _ h0, rfl⟩
    · rw [run_bind, h0] at h
      simp at h
  · rcases sys_recvfrom_spec fd buf left.toNat s with ⟨r0, s0, h0, _⟩ | ⟨s0, h0⟩
    · rw [run_bind_ok h0] at h
      by_cases hneg : r0 < 0
      · simp [hneg] at h
      · simp only [hneg, if_false, run_pure, Res.ok.injEq] at h
        obtain ⟨e1, e2⟩ := h
        subst e1 e2
        obtain ⟨src, hsrc⟩ := sys_recvfrom_ok_trace _ _ _ _ _ _ h0
        exact ⟨_, hsrc, rfl⟩
    · rw [run_bind, h0] at h
      simp at h

/-- When the loop of `read_n` returns, on any descriptor and in either mode: it
returns 0 if one of the reads it issued returned 0, and `n` if none did. -/
theorem read_n_loop_zero (fd : Int) (n : Int) (mode : Nat) :
    ∀ (fuel : Nat) (left : Int) (buf : Ptr) (s s1 : State) (r : Int),
      read_n_loop fd n mode fuel left buf s = Res.ok r s1 →
      ∃ calls, s1.k.trace = s.k.trace ++ calls ∧
        (calls.any Syscall.isZeroRead = true → r = 0) ∧
        (calls.any Syscall.isZeroRead = false → r = n) := by
  intro fuel
  induction fuel with
  | zero =>
    intro left buf s s1 r h
    simp only [read_n_loop] at h
    split at h
    · simp at h
    · simp only [run_pure, Res.ok.injEq] at h
      obtain ⟨e1, e2⟩ := h
      subst e1 e2
      exact ⟨[], by simp, by simp, fun _ => rfl⟩
  | succ fuel ih =>
    intro left buf s s1 r h
    simp only [read_n_loop] at h
    split at h
    · rcases cread_spec fd buf left mode s with ⟨r0, s0, h0, _, _⟩ | ⟨s0, h0⟩ | ⟨s0, h0⟩
      · rw [run_bind_ok h0] at h
        obtain ⟨c, hc1, hc2⟩ := cread_ok_trace _ _ _ _ _ _ _ h0
        by_cases hz : r0 = 0
        · simp only [hz, if_true, run_pure, Res.ok.injEq] at h
          obtain ⟨e1, e2⟩ := h
          subst e1 e2
          refine ⟨[c], hc1, fun _ => rfl, ?_⟩
          intro hno
          simp [hc2, hz] at hno
        · simp only [hz, if_false] at h
          obtain ⟨calls, g1, g2, g3⟩ := ih _ _ _ _ _ h
          refine ⟨c :: calls, ?_, ?_, ?_⟩
          · rw [g1, hc1]
            simp
          · intro hany
            apply g2
            simpa [hc2, hz] using hany
          · intro hno
            apply g3
            simpa [hc2, hz] using hno
      · rw [run_bind, h0] at h
        simp at h
      · rw [run_bind, h0] at h
        simp at h
    · simp only [run_pure, Res.ok.injEq] at h
      obtain ⟨e1, e2⟩ := h
      subst e1 e2
      exact ⟨[], by simp, by simp, fun _ => rfl⟩

/-! # The claims -/

/-- C3 (wire format).  When a frame `p` of at most 2000 bytes waits at the
device and the network descriptor is a connected stream socket (stream mode) or
a datagram socket (datagram mode), the device branch of the loop returns after
one `read` on the device followed by exactly two calls on the network
descriptor, both successful: the first hands over the two bytes
`[len / 256, len % 256]`, the second the bytes of `p`; so the bytes put on the
network descriptor are the big endian length followed by the payload and
nothing else, on a host of either byte order. -/
theorem wire_format (s : State) (p : List Byte) (q : List (List Byte))
    (hk : s.k.kind s.tunfd = some FdKind.tun) (hq : s.k.tunIn = p :: q)
    (hp : p.length ≤ BUFSIZE)
    (hn : (s.nwk_mode = TCP_MODE ∧ s.k.kind s.netfd = some FdKind.tcpConn) ∨
      (s.nwk_mode ≠ TCP_MODE ∧ s.k.kind s.netfd = some FdKind.udp)) :
    ∃ s1 calls, tun_branch s = Res.ok () s1 ∧
      s1.k.trace = s.k.trace ++ Syscall.read s.tunfd BUFSIZE (p.length : Int) :: calls ∧
      calls.length = 2 ∧
      written s.netfd calls = [[p.length / 256, p.length % 256], p] ∧
      wire s.netfd s1.k.trace
        = wire s.netfd s.k.trace ++ ([p.length / 256, p.length % 256] ++ p) := by
  rcases hn with ⟨hm, hn⟩ | ⟨hm, hn⟩
  · obtain ⟨s1, h1, h2⟩ := tun_branch_tcp s p q hk hq hp hm hn
    refine ⟨s1, _, h1, h2, rfl, ?_, ?_⟩
    · simp [written]
    · rw [h2]
      simp [wire, written_append, written]
  · obtain ⟨s1, h1, h2⟩ := tun_branch_udp s p q hk hq hp hm hn
    refine ⟨s1, _, h1, h2, rfl, ?_, ?_⟩
    · simp [written]
    · rw [h2]
      simp [wire, written_append, written]

/-- Witness for C3: the frame `[1, 2, 3]` at the device of `exStateBE`. -/
theorem wire_format_witness :
    ∃ s1 calls, tun_branch exStateBE = Res.ok () s1 ∧
      s1.k.trace = exStateBE.k.trace ++ Syscall.read exStateBE.tunfd BUFSIZE 3 :: calls ∧
      calls.length = 2 ∧
      written exStateBE.netfd calls = [[0, 3], [1, 2, 3]] ∧
      wire exStateBE.netfd s1.k.trace
        = wire exStateBE.netfd exStateBE.k.trace ++ ([0, 3] ++ [1, 2, 3]) :=
  wire_format exStateBE [1, 2, 3] [] (by decide) (by decide) (by decide)
    (Or.inl ⟨by decide, by decide⟩)

/-- C1 (round trip over a stream).  A sender in stream mode finds a frame `p` of
at most 2000 bytes at its device; the stream of a receiver in stream mode holds
exactly the bytes that the device branch of the sender puts on its socket, and
the reads of the receiver may split them in any way.  Then the device branch of
the sender returns, the only call of the receiver besides its reads on the
socket is one `write` on its device with exactly the bytes `p`, and no byte is
left pending.  The device takes the frame and the network branch returns
without leaving the loop when `p` has at least the `TUN_PI_LEN` bytes of a
device header; for a shorter `p` the same `write` is issued and fails, and
`cwrite` calls `exit(1)`.  The byte orders of the two hosts need not agree. -/
theorem round_trip (s r : State) (p : List Byte) (q : List (List Byte))
    (hk : s.k.kind s.tunfd = some FdKind.tun) (hq : s.k.tunIn = p :: q)
    (hp : p.length ≤ BUFSIZE) (hm : s.nwk_mode = TCP_MODE)
    (hn : s.k.kind s.netfd = some FdKind.tcpConn)
    (rm : r.nwk_mode = TCP_MODE) (rn : r.k.kind r.netfd = some FdKind.tcpConn)
    (rt : r.k.kind r.tunfd = some FdKind.tun) (rs : Chunk.fail ∉ r.k.stream.sched)
    (hw : wire s.netfd (tun_branch s).state.k.trace
      = wire s.netfd s.k.trace ++ r.k.stream.pending) :
    ∃ s1 r1 calls, tun_branch s = Res.ok () s1 ∧
      net_branch r = (if p.length < TUN_PI_LEN then Res.exit 1 r1 else Res.ok false r1) ∧
      calls.all (Syscall.isReadOn r.netfd) = true ∧
      r1.k.trace = r.k.trace ++ calls ++ [Syscall.write r.tunfd p
        (if p.length < TUN_PI_LEN then -1 else (p.length : Int))] ∧
      r1.k.stream.pending = [] := by
  have hb : BUFSIZE = 2000 := rfl
  obtain ⟨s1, h1, h2⟩ := tun_branch_tcp s p q hk hq hp hm hn
  have hpend : r.k.stream.pending = p.length / 256 :: p.length % 256 :: (p ++ []) := by
    rw [h1] at hw
    simp only [Res.state, h2, wire, written_append] at hw
    simp only [written, true_and, List.flatten_append] at hw
    have h0 : (0 : Int) ≤ 2 := by decide
    have h3 : (0 : Int) ≤ (p.length : Int) := by omega
    simp only [h0, h3, if_true] at hw
    have := List.append_cancel_left hw
    simp [← this]
  obtain ⟨r1, calls, g1, g2, g3, g4, _⟩ := net_branch_decodes r (p.length / 256)
    (p.length % 256) p [] rm rn rt rs hpend (by omega)
  exact ⟨s1, r1, calls, h1, g1, g2, g3, g4⟩

/-- Witness for C1: `exFour` sends the frame `[1, 2, 3, 4]`; `exFourBE`, whose
stream holds the six bytes of the envelope, receives it in four reads and its
device takes the frame. -/
theorem round_trip_witness :
    ∃ s1 r1 calls, tun_branch exFour = Res.ok () s1 ∧ net_branch exFourBE = Res.ok false r1 ∧
      calls.all (Syscall.isReadOn exFourBE.netfd) = true ∧
      r1.k.trace = exFourBE.k.trace ++ calls
        ++ [Syscall.write exFourBE.tunfd [1, 2, 3, 4] 4] ∧
      r1.k.stream.pending = [] :=
  round_trip exFour exFourBE [1, 2, 3, 4] [] (by decide) (by decide) (by decide) (by decide)
    (by decide) (by decide) (by decide) (by decide) (by decide) (by rfl)

/-- C2 (reassembly of split reads).  On a connected stream socket whose reads
succeed and deliver the pending bytes in pieces of any sizes (each between one
byte and the count asked for), `read_n` with `TCP_MODE` and the count `len data`
returns `len data`, the memory at `buf` then holds `data`, the first bytes of
the stream in their order, and the bytes after them stay pending; and the
network branch, given the two bytes of the length of a frame followed by the
frame, hands exactly the frame to the device with one `write`, and goes on when
the frame has at least the `TUN_PI_LEN` bytes the device asks for (for a shorter
frame the same `write` fails and `cwrite` calls `exit(1)`). -/
theorem partial_read_reassembly (s : State) (hs : Chunk.fail ∉ s.k.stream.sched) :
    (∀ (fd : Int) (buf : Ptr) (data rest : List Byte),
      s.k.kind fd = some FdKind.tcpConn →
      s.k.stream.pending = data ++ rest →
      buf.off ≤ (s.region buf).length →
      ∃ s1, read_n fd buf (data.length : Int) TCP_MODE s = Res.ok (data.length : Int) s1 ∧
        s1.load buf data.length = data ∧ s1.k.stream.pending = rest) ∧
    (∀ (frame rest : List Byte),
      s.nwk_mode = TCP_MODE →
      s.k.kind s.netfd = some FdKind.tcpConn →
      s.k.kind s.tunfd = some FdKind.tun →
      frame.length < 65536 →
      s.k.stream.pending = frame.length / 256 :: frame.length % 256 :: (frame ++ rest) →
      ∃ s1 calls,
        net_branch s
          = (if frame.length < TUN_PI_LEN then Res.exit 1 s1 else Res.ok false s1) ∧
        calls.all (Syscall.isReadOn s.netfd) = true ∧
        s1.k.trace = s.k.trace ++ calls ++ [Syscall.write s.tunfd frame
          (if frame.length < TUN_PI_LEN then -1 else (frame.length : Int))] ∧
        s1.k.stream.pending = rest) := by
  constructor
  · intro fd buf data rest hk hp hoff
    obtain ⟨j, calls, _, h⟩ := read_n_stream fd buf s data rest hk hs hp
    refine ⟨_, h, ?_, ?_⟩
    · cases buf <;>
        simp only [State.delivered, State.store, State.load, State.region, Ptr.off] at hoff ⊢ <;>
        exact loadAt_storeAt _ _ _ hoff
    · cases buf <;> rfl
  · intro frame rest hm hn ht hl hp
    obtain ⟨s1, calls, g1, g2, g3, g4, _⟩ := net_branch_decodes s (frame.length / 256)
      (frame.length % 256) frame rest hm hn ht hs hp (by omega)
    exact ⟨s1, calls, g1, g2, g3, g4⟩

/-- Witness for C2: the six pending bytes of `exFour` arrive in pieces of one,
one, two and two bytes. -/
theorem partial_read_reassembly_witness :
    (∃ s1, read_n 4 (Ptr.buffer 0) 6 TCP_MODE exFour = Res.ok 6 s1 ∧
      s1.load (Ptr.buffer 0) 6 = [0, 4, 1, 2, 3, 4] ∧ s1.k.stream.pending = []) ∧
    (∃ s1 calls, net_branch exFour = Res.ok false s1 ∧
      calls.all (Syscall.isReadOn exFour.netfd) = true ∧
      s1.k.trace = exFour.k.trace ++ calls ++ [Syscall.write exFour.tunfd [1, 2, 3, 4] 4] ∧
      s1.k.stream.pending = []) :=
  ⟨(partial_read_reassembly exFour (by decide)).1 4 (Ptr.buffer 0) [0, 4, 1, 2, 3, 4] []
      (by decide) (by decide) (Nat.zero_le _),
    (partial_read_reassembly exFour (by decide)).2 [1, 2, 3, 4] [] (by decide) (by decide)
      (by decide) (by decide) (by decide)⟩

/-- C4 (clean shutdown).  Stream mode, distinct descriptors for device and
socket.  In an iteration in which `select` reports the socket readable (and the
device readable or not; if it is, its branch returns), when the first `read` for
the two bytes of the length returns 0, the iteration leaves the loop, `main`
returns `EXIT_SUCCESS`, that `read` is the only call of the network branch, and
the iteration has issued no `write` and no `sendto` on the device. -/
theorem clean_shutdown (s s1 s2 : State) (b : Bool) (rest : List SelRes)
    (hm : s.nwk_mode = TCP_MODE) (hd : s.netfd ≠ s.tunfd)
    (h1 : (if b then tun_branch else pure ()) s = Res.ok () s1)
    (h2 : sys_read s1.netfd (Ptr.plength 0) 2 s1 = Res.ok 0 s2) :
    ∃ s3, loop_iter (SelRes.ready b true) s = Res.ok true s3 ∧
      forward (SelRes.ready b true :: rest) s = Res.ok (some 0) s3 ∧
      s3.k.trace = s1.k.trace ++ [Syscall.read s1.netfd 2 0] ∧
      written s.tunfd s3.k.trace = written s.tunfd s.k.trace := by
  have hq : QuietAt s.tunfd (if b then tun_branch else pure ()) s := by
    cases b
    · exact quiet_pure _ _ _
    · exact quiet_tun_branch _ _ hd
  obtain ⟨c1, q1, q2, _, _, q5⟩ := hq
  rw [h1] at q1 q5
  simp only [Res.state] at q1 q5
  have hnet : net_branch s1 = Res.ok true { s2 with nread := 0 } := by
    unfold net_branch
    rw [run_getState, q5, hm]
    have hr : read_n s1.netfd (Ptr.plength 0) 2 TCP_MODE s1 = Res.ok 0 s2 := by
      unfold read_n
      have e : (2 : Int).toNat = 1 + 1 := rfl
      rw [e]
      unfold read_n_loop
      have e2 : (2 : Int) > 0 := by decide
      simp only [e2, if_true]
      have hc : cread s1.netfd (Ptr.plength 0) 2 TCP_MODE s1 = Res.ok 0 s2 := by
        unfold cread
        simp only [if_true]
        have e3 : (2 : Int).toNat = 2 := rfl
        rw [e3, run_bind_ok h2]
        rfl
      rw [run_bind_ok hc]
      rfl
    rw [run_bind_ok hr]
    rfl
  have hit : loop_iter (SelRes.ready b true) s = Res.ok true { s2 with nread := 0 } := by
    unfold loop_iter
    cases b
    · simp only [Bool.false_eq_true, if_false, if_true] at h1 ⊢
      simp only [run_pure, Res.ok.injEq, true_and] at h1
      rw [h1]
      exact hnet
    · simp only [if_true] at h1 ⊢
      rw [run_bind_ok h1]
      exact hnet
  have ht := sys_read_ok_trace _ _ _ _ _ _ h2
  refine ⟨_, hit, forward_break _ rest _ _ hit, ht, ?_⟩
  show written s.tunfd s2.k.trace = written s.tunfd s.k.trace
  rw [ht, q1, written_append, written_append, q2]
  simp [written]

/-- Witness for C4: `exClosed`, where only the socket is ready and the stream
is at its end. -/
theorem clean_shutdown_witness :
    ∃ s3, loop_iter (SelRes.ready false true) exClosed = Res.ok true s3 ∧
      forward (SelRes.ready false true :: []) exClosed = Res.ok (some 0) s3 ∧
      s3.k.trace = exClosed.k.trace ++ [Syscall.read exClosed.netfd 2 0] ∧
      written exClosed.tunfd s3.k.trace = written exClosed.tunfd exClosed.k.trace :=
  clean_shutdown exClosed exClosed (exClosed.log (Syscall.read 4 2 0)) false [] (by decide)
    (by decide) (by rfl) (by rfl)

/-- C5, evaluated at a length above the buffer size.  The stream of `exLong`
announces 2001 bytes and holds them; its frame buffer has `BUFSIZE` = 2000
bytes.  The network branch returns after storing 2001 bytes through the
pointer `buffer`, one past the end of the array, and hands 2001 bytes to the
device. -/
theorem frame_bound_overflow :
    ∃ s1 calls, net_branch exLong = Res.ok false s1 ∧
      exLong.buffer.length = BUFSIZE ∧
      s1.buffer = List.replicate 2001 9 ∧
      BUFSIZE < s1.buffer.length ∧
      s1.k.trace = calls ++ [Syscall.write 3 (List.replicate 2001 9) 2001] := by
  have hpend : exLong.k.stream.pending = 7 :: 209 :: (List.replicate 2001 9 ++ []) := by
    rw [List.append_nil]
    rfl
  have hbuf : exLong.buffer = List.replicate 2000 0 := rfl
  have htr : exLong.k.trace = [] := rfl
  have hfd : exLong.tunfd = 3 := rfl
  obtain ⟨s1, calls, h1, _, h3, _, h5⟩ := net_branch_decodes exLong 7 209
    (List.replicate 2001 9) [] (by decide) (by decide) (by decide)
    (List.not_mem_nil _) hpend (by rw [List.length_replicate])
  have h4 : ¬ 2001 < TUN_PI_LEN := by decide
  rw [List.length_replicate] at h1 h3
  simp only [h4, if_false] at h1 h3
  have hb : s1.buffer = List.replicate 2001 9 := by
    rw [h5, hbuf]
    unfold storeAt
    rw [List.take_zero, List.nil_append, List.drop_eq_nil_of_le, List.append_nil]
    rw [List.length_replicate, List.length_replicate]
    omega
  refine ⟨s1, calls, h1, ?_, hb, ?_, ?_⟩
  · rw [hbuf, List.length_replicate]
    rfl
  · rw [hb, List.length_replicate]
    decide
  · rw [h3, htr, hfd]
    rfl

/-- C10 as stated fails.  In `exShortPayload` the stream ends after a length
of three and one byte of payload.  The network branch reads the length in two
reads and the one byte of payload, the next `read` returns 0, and the branch
calls `write` on the device with no bytes; the device rejects the empty frame,
`cwrite` calls `exit(1)`, and the iteration does not return to the loop. -/
theorem truncated_payload_counterexample :
    loop_iter (SelRes.ready false true) exShortPayload
      = Res.exit 1 (loop_iter (SelRes.ready false true) exShortPayload).state ∧
    (loop_iter (SelRes.ready false true) exShortPayload).state.k.trace
      = [Syscall.read 4 2 1, Syscall.read 4 1 1, Syscall.read 4 3 1, Syscall.read 4 2 0,
          Syscall.write 3 [] (-1)] ∧
    ∀ s1, loop_iter (SelRes.ready false true) exShortPayload ≠ Res.ok false s1 := by
  have h : loop_iter (SelRes.ready false true) exShortPayload
      = Res.exit 1 (loop_iter (SelRes.ready false true) exShortPayload).state := by rfl
  refine ⟨h, by rfl, ?_⟩
  intro s1 h1
  rw [h1] at h
  simp at h

/-- C10 as amended (end of stream inside an envelope).  From every state:
`read_n` never exhausts the bound on its iterations and, when it returns,
returns `n` or 0; on every descriptor and in either mode it returns 0 when one
of the reads it issued returned 0, also after reads that delivered bytes, and
`n` when none did; on a stream that the peer has shut down with fewer than `n`
bytes pending it returns 0 after consuming those bytes; when the stream ends
after the two bytes of a length and fewer payload bytes than announced, the
network branch does not take the `break`: it consumes what was pending and
calls `write` on the device with no bytes, the device rejects the empty frame
and `cwrite` ends the process with `exit(1)`; when the stream ends after one
byte of the length, the iteration leaves the loop after `read` calls only and
`main` returns `EXIT_SUCCESS`. -/
theorem eof_inside_envelope (s : State) :
    (∀ (fd : Int) (buf : Ptr) (n : Int) (mode : Nat),
      (∀ s1, read_n fd buf n mode s ≠ Res.fuel s1) ∧
      (∀ r s1, read_n fd buf n mode s = Res.ok r s1 → r = n ∨ r = 0)) ∧
    (∀ (fd : Int) (buf : Ptr) (n : Int) (mode : Nat) (r : Int) (s1 : State),
      read_n fd buf n mode s = Res.ok r s1 →
      ∃ calls, s1.k.trace = s.k.trace ++ calls ∧
        (calls.any Syscall.isZeroRead = true → r = 0) ∧
        (calls.any Syscall.isZeroRead = false → r = n)) ∧
    (∀ (fd : Int) (buf : Ptr) (n : Int) (data : List Byte),
      s.k.kind fd = some FdKind.tcpConn → Chunk.fail ∉ s.k.stream.sched →
      s.k.stream.pending = data → s.k.stream.closed = true → (data.length : Int) < n →
      ∃ s1, read_n fd buf n TCP_MODE s = Res.ok 0 s1 ∧ s1.k.stream.pending = []) ∧
    (∀ (b0 b1 : Byte) (part : List Byte),
      s.nwk_mode = TCP_MODE → s.k.kind s.netfd = some FdKind.tcpConn →
      s.k.kind s.tunfd = some FdKind.tun → Chunk.fail ∉ s.k.stream.sched →
      s.k.stream.pending = b0 :: b1 :: part → s.k.stream.closed = true →
      part.length < b0 % 256 * 256 + b1 % 256 →
      ∃ s1 calls, loop_iter (SelRes.ready false true) s = Res.exit 1 s1 ∧
        calls.all (Syscall.isReadOn s.netfd) = true ∧
        s1.k.trace = s.k.trace ++ calls ++ [Syscall.write s.tunfd [] (-1)] ∧
        s1.k.stream.pending = []) ∧
    (∀ (b : Byte) (rest : List SelRes),
      s.nwk_mode = TCP_MODE → s.k.kind s.netfd = some FdKind.tcpConn →
      Chunk.fail ∉ s.k.stream.sched →
      s.k.stream.pending = [b] → s.k.stream.closed = true →
      ∃ s1 calls, loop_iter (SelRes.ready false true) s = Res.ok true s1 ∧
        forward (SelRes.ready false true :: rest) s = Res.ok (some EXIT_SUCCESS) s1 ∧
        calls.all (Syscall.isReadOn s.netfd) = true ∧
        s1.k.trace = s.k.trace ++ calls) := by
  refine ⟨?_, ?_, ?_, ?_, ?_⟩
  · intro fd buf n mode
    rcases read_n_spec fd buf n mode s with ⟨r, s1, h, hr⟩ | ⟨s1, h⟩ | ⟨s1, h⟩
    · refine ⟨fun s2 => by rw [h]; simp, fun r2 s2 h2 => ?_⟩
      rw [h] at h2
      simp only [Res.ok.injEq] at h2
      rw [← h2.1]
      exact hr
    · exact ⟨fun s2 => by rw [h]; simp, fun r2 s2 h2 => by rw [h] at h2; simp at h2⟩
    · exact ⟨fun s2 => by rw [h]; simp, fun r2 s2 h2 => by rw [h] at h2; simp at h2⟩
  · intro fd buf n mode r s1 h
    unfold read_n at h
    exact read_n_loop_zero fd n mode _ _ _ _ _ _ h
  · intro fd buf n data hk hs hp hc hl
    obtain ⟨j, calls, _, h⟩ := read_n_eof fd buf n s data hk hs hp hc hl
    refine ⟨_, h, ?_⟩
    cases buf <;> rfl
  · intro b0 b1 part hm hn ht hs hp hc hl
    rw [loop_iter_net]
    exact net_branch_short_payload s b0 b1 part hm hn ht hs hp hc hl
  · intro b rest hm hn hs hp hc
    obtain ⟨s1, calls, h1, h2, h3⟩ := net_branch_eof_header s [b] hm hn hs hp hc (by simp)
    rw [← loop_iter_net] at h1
    exact ⟨s1, calls, h1, forward_break _ rest _ _ h1, h2, h3⟩

/-- Witness for C10 as amended: `exEmptyDgram` (datagram mode, one byte from
`peerA`, then an empty datagram), `exShortPayload` (a length of three, one byte
of payload, end of stream) and `exHalfLength` (one byte of a length, end of
stream). -/
theorem eof_inside_envelope_witness :
    (∃ calls,
      (read_n 4 (Ptr.buffer 0) 2 UDP_MODE exEmptyDgram).state.k.trace
        = exEmptyDgram.k.trace ++ calls ∧
      (calls.any Syscall.isZeroRead = true → (0 : Int) = 0) ∧
      (calls.any Syscall.isZeroRead = false → (0 : Int) = 2)) ∧
    (∃ s1, read_n 4 (Ptr.buffer 0) 3 TCP_MODE exHalfLength = Res.ok 0 s1 ∧
      s1.k.stream.pending = []) ∧
    (∃ s1 calls, loop_iter (SelRes.ready false true) exShortPayload = Res.exit 1 s1 ∧
      calls.all (Syscall.isReadOn exShortPayload.netfd) = true ∧
      s1.k.trace = exShortPayload.k.trace ++ calls
        ++ [Syscall.write exShortPayload.tunfd [] (-1)] ∧
      s1.k.stream.pending = []) ∧
    (∃ s1 calls, loop_iter (SelRes.ready false true) exHalfLength = Res.ok true s1 ∧
      forward (SelRes.ready false true :: []) exHalfLength = Res.ok (some EXIT_SUCCESS) s1 ∧
      calls.all (Syscall.isReadOn exHalfLength.netfd) = true ∧
      s1.k.trace = exHalfLength.k.trace ++ calls) :=
  ⟨(eof_inside_envelope exEmptyDgram).2.1 4 (Ptr.buffer 0) 2 UDP_MODE 0
      (read_n 4 (Ptr.buffer 0) 2 UDP_MODE exEmptyDgram).state (by rfl),
    (eof_inside_envelope exHalfLength).2.2.1 4 (Ptr.buffer 0) 3 [7] (by decide) (by decide)
      (by decide) (by decide) (by decide),
    (eof_inside_envelope exShortPayload).2.2.2.1 0 3 [1] (by decide) (by decide) (by decide)
      (by decide) (by decide) (by decide) (by decide),
    (eof_inside_envelope exHalfLength).2.2.2.2 7 [] (by decide) (by decide) (by decide)
      (by decide) (by decide)⟩

/-- C7, evaluated.  Client role, datagram transport, peer address 10.0.0.1
(167772161) and port 6666 from the configuration, every set-up call succeeds,
and a frame waits at the device before anything was received.  The set-up
stores the peer in the local `server` and issues only `socket`; both `sendto`
calls of the first frame carry the zero filled `si_other` as destination, not
the configured peer. -/
theorem client_datagram_target :
    (main_from_setup 167772161 DEFAULT_PORT [SelRes.ready true false]
        (boot CLIENT_MODE UDP_MODE (exBoot (-1)))).state.k.trace
      = [Syscall.socket false 4, Syscall.read 3 2000 3,
          Syscall.sendto 4 [0, 3] SockAddr.zero 2,
          Syscall.sendto 4 [1, 2, 3] SockAddr.zero 3] ∧
    (main_from_setup 167772161 DEFAULT_PORT [SelRes.ready true false]
        (boot CLIENT_MODE UDP_MODE (exBoot (-1)))).state.server
      = ⟨AF_INET, 167772161, DEFAULT_PORT⟩ ∧
    (main_from_setup 167772161 DEFAULT_PORT [SelRes.ready true false]
        (boot CLIENT_MODE UDP_MODE (exBoot (-1)))).state.si_other = SockAddr.zero ∧
    (⟨AF_INET, 167772161, DEFAULT_PORT⟩ : SockAddr) ≠ SockAddr.zero := by
  refine ⟨by rfl, by rfl, by rfl, by decide⟩

theorem sys_sendto_logs (fd : Int) (buf : Ptr) (n : Nat) (s : State) :
    ∃ r, sys_sendto fd buf n s
      = Res.ok r (s.log (Syscall.sendto fd (s.load buf n) s.si_other r)) := by
  unfold sys_sendto
  dsimp only
  split <;> exact ⟨_, rfl⟩

/-- C8, evaluated.  With the global `nwk_mode` set to `UDP_MODE`, a call of
`cwrite` with `socket_mode = TCP_MODE` issues `sendto` with the address in
`si_other`, on every descriptor and from every state; in `exServerUdp` the
network branch therefore calls `sendto` on the device descriptor 3 for the
decoded frame, the call fails on a descriptor that is no socket, the process
ends with `exit(1)` and nothing was written to the device.  With `nwk_mode` set
to `TCP_MODE` the same call of `cwrite` issues `write`. -/
theorem device_write_follows_nwk_mode :
    (∀ (s : State) (fd : Int) (buf : Ptr) (n : Int), ∃ ret,
      (cwrite fd buf n TCP_MODE { s with nwk_mode := UDP_MODE }).state.k.trace
        = s.k.trace ++ [Syscall.sendto fd (s.load buf n.toNat) s.si_other ret]) ∧
    (∃ s1, loop_iter (SelRes.ready false true) exServerUdp = Res.exit 1 s1 ∧
      s1.k.trace = [Syscall.recvfrom 4 2 2 (some peerA), Syscall.recvfrom 4 1 1 (some peerB),
        Syscall.sendto 3 [9] peerB (-1)] ∧
      written 3 s1.k.trace = []) ∧
    (cwrite 3 (Ptr.buffer 0) 4 TCP_MODE exState).state.k.trace
      = [Syscall.write 3 [0, 0, 0, 0] 4] := by
  refine ⟨?_, ⟨_, by rfl, by rfl, by rfl⟩, by rfl⟩
  intro s fd buf n
  unfold cwrite
  rw [run_getState]
  have hu : ¬ UDP_MODE = TCP_MODE := by decide
  simp only [hu, if_false]
  obtain ⟨r, hr⟩ := sys_sendto_logs fd buf n.toNat { s with nwk_mode := UDP_MODE }
  rw [run_bind_ok hr]
  refine ⟨r, ?_⟩
  by_cases h0 : r < 0
  · simp only [h0, if_true]
    cases buf <;> rfl
  · simp only [h0, if_false]
    cases buf <;> rfl

/-- C9, evaluated.  Every set-up call succeeds (`socket` returns 4, `accept`
returns 5).  In the client role with either transport the set-up leaves the
socket 4 in `netfd`; in the server role with stream transport it leaves the
accepted connection 5 there; in the server role with datagram transport it
creates and binds the socket 4 and returns without an assignment to `netfd`,
which still holds the value `junk` it had before the set-up. -/
theorem server_datagram_netfd (junk : Int) (addr port : Nat) :
    (setup addr port (boot SERVER_MODE UDP_MODE (exBoot junk)))
      = Res.ok () (setup addr port (boot SERVER_MODE UDP_MODE (exBoot junk))).state ∧
    (setup addr port (boot SERVER_MODE UDP_MODE (exBoot junk))).state.k.trace
      = [Syscall.socket false 4, Syscall.setsockopt 4 0,
          Syscall.bind 4 ⟨AF_INET, INADDR_ANY, port⟩ 0] ∧
    (setup addr port (boot SERVER_MODE UDP_MODE (exBoot junk))).state.sockfd = 4 ∧
    (setup addr port (boot SERVER_MODE UDP_MODE (exBoot junk))).state.netfd = junk ∧
    (setup addr port (boot SERVER_MODE TCP_MODE (exBoot junk))).state.netfd = 5 ∧
    (setup addr port (boot CLIENT_MODE UDP_MODE (exBoot junk))).state.netfd = 4 ∧
    (setup addr port (boot CLIENT_MODE TCP_MODE (exBoot junk))).state.netfd = 4 := by
  refine ⟨by rfl, by rfl, by rfl, by rfl, by rfl, by rfl, by rfl⟩

end Powertun
